import Mathlib

/-!
# Book inventory service: CRUD handlers and the request/response logger

A shallow embedding of `cmd/main.go` (with the standalone copies of the handlers in
`cmd/post_books.go`, `cmd/put_books.go`, `cmd/delete_books.go`, which are textually the
same closures) together with the properties of the handlers that the specification states.

* The MongoDB collection is a list of `BookStore` documents in natural (insertion) order.
* A handler is a function from the driver's behaviour during the call, the request and the
  collection to the reply, the collection afterwards and the store calls it issued.
* The echo middleware `LoggerRR` is a function on an explicit request/response context.
-/

namespace BookApi

/-! ## Data model (`cmd/main.go`, lines 27-35) -/

/-- The `BookStore` struct. `MongoID` is the store's `_id` (a `primitive.ObjectID`, here a
natural number, `0` being the zero value that `omitempty` leaves out of the BSON document);
the other fields are serialised under their lower-cased names, so `ID` is the BSON field
`id` that every filter of the handlers matches on. -/
structure BookStore where
  MongoID : Nat
  ID : String
  BookName : String
  BookAuthor : String
  BookEdition : String
  BookPages : String
  BookYear : String
deriving DecidableEq, Repr

/-- The collection handle `coll`: the documents in natural order. -/
abbrev Collection := List BookStore

/-- The Go value `map[string]string` that `c.Bind` fills from a flat JSON object. -/
abbrev RequestData := List (String × String)

/-- The two-valued map read `v, ok := m[k]`: the zero value `""` and `false` when absent. -/
def commaOk (m : RequestData) (k : String) : String × Bool :=
  match m.lookup k with
  | some v => (v, true)
  | none => ("", false)

/-- The one-valued map read `m[k]`: the zero value `""` when the key is absent. -/
def index (m : RequestData) (k : String) : String :=
  (commaOk m k).1

/-! ## The document store, as the handlers use it -/

/-- Result of `coll.CountDocuments(ctx, bson.M{"id": id})`. -/
def CountDocuments : Collection → String → Nat
  | [], _ => 0
  | d :: rest, id => (if d.ID = id then 1 else 0) + CountDocuments rest id

/-- Result of `coll.FindOne(ctx, bson.M{"id": id})`: the first matching document,
`none` standing for `mongo.ErrNoDocuments`. -/
def FindOne : Collection → String → Option BookStore
  | [], _ => none
  | d :: rest, id => if d.ID = id then some d else FindOne rest id

/-- Result of `coll.Find(ctx, filter)` read with `cursor.All`, the filter being a `BookStore`
struct: its `_id` is left out (zero value, `omitempty`), so a document matches when its six
string fields equal the filter's. -/
def Find (coll : Collection) (filter : BookStore) : List BookStore :=
  coll.filter fun d =>
    d.ID = filter.ID ∧ d.BookName = filter.BookName ∧ d.BookAuthor = filter.BookAuthor ∧
    d.BookEdition = filter.BookEdition ∧ d.BookPages = filter.BookPages ∧
    d.BookYear = filter.BookYear

/-- Effect of `coll.InsertOne(ctx, doc)`: a document whose `_id` was left out gets the
ObjectID `oid` generated by the driver; the document is added at the end. -/
def InsertOne (coll : Collection) (doc : BookStore) (oid : Nat) : Collection :=
  coll ++ [if doc.MongoID = 0 then { doc with MongoID := oid } else doc]

/-- Effect of `coll.ReplaceOne(ctx, bson.M{"id": id}, repl)`: the first matching document is
replaced, keeping its `_id`; nothing happens when no document matches; `none` is the write
error raised when the replacement carries a different `_id` (the field is immutable). -/
def ReplaceOne : Collection → String → BookStore → Option Collection
  | [], _, _ => some []
  | d :: rest, id, repl =>
    if d.ID = id then
      if repl.MongoID = 0 then some ({ repl with MongoID := d.MongoID } :: rest)
      else if repl.MongoID = d.MongoID then some (repl :: rest)
      else none
    else (ReplaceOne rest id repl).map (fun rest' => d :: rest')

/-- Effect of `coll.DeleteOne(ctx, bson.M{"id": id})`: the first matching document is
removed; the second component is `result.DeletedCount`. -/
def DeleteOne : Collection → String → Collection × Nat
  | [], _ => ([], 0)
  | d :: rest, id =>
    if d.ID = id then (rest, 1)
    else ((d :: (DeleteOne rest id).1), (DeleteOne rest id).2)

/-- What the MongoDB driver contributes to one handler call: which store calls come back
with `err != nil` (connection or server failure, the collection being left as it was), and
the ObjectID it generates for an inserted document. -/
structure Driver where
  countFails : Bool
  insertFails : Bool
  findFails : Bool
  replaceFails : Bool
  deleteFails : Bool
  cursorFails : Bool
  newObjectID : Nat
deriving DecidableEq, Repr

/-- A driver whose store calls all succeed. -/
def Driver.healthy (oid : Nat) : Driver :=
  { countFails := false, insertFails := false, findFails := false, replaceFails := false,
    deleteFails := false, cursorFails := false, newObjectID := oid }

/-- The store calls a handler issues, in order. -/
inductive StoreCall where
  | countDocuments (id : String)
  | insertOne (doc : BookStore)
  | findOne (id : String)
  | replaceOne (id : String) (doc : BookStore)
  | deleteOne (id : String)
deriving DecidableEq, Repr

/-! ## HTTP replies -/

/-- A JSON object with string members, in the order the source lists them. -/
abbrev JsonObject := List (String × String)

/-- The body a handler sends: nothing (`c.NoContent`), or the JSON encoding of a map or of
a slice of maps (`c.JSON`); a nil slice is `array none`. -/
inductive Body where
  | empty
  | object (members : JsonObject)
  | array (slice : Option (List JsonObject))
deriving DecidableEq, Repr

/-- Status code and body of the reply. -/
structure Reply where
  status : Nat
  body : Body
deriving DecidableEq, Repr

/-- `c.JSON(status, map[string]string{"error": msg})`. -/
def errorReply (status : Nat) (msg : String) : Reply :=
  ⟨status, .object [("error", msg)]⟩

/-- What one handler call did: its reply, the collection afterwards, the store calls. -/
structure Outcome where
  reply : Reply
  coll : Collection
  calls : List StoreCall
deriving DecidableEq, Repr

/-- The JSON object both `POST /api/books` and `getAllBooksForAPI` build from a book. -/
def bookJson (b : BookStore) : JsonObject :=
  [("id", b.ID), ("title", b.BookName), ("author", b.BookAuthor),
   ("pages", b.BookPages), ("edition", b.BookEdition), ("year", b.BookYear)]

/-! ## The handlers (`cmd/main.go`, lines 323-471)

`bind` is the result of `c.Bind(&requestData)`: `none` when binding fails. -/

/-- The function `getAllBooksForAPI` (lines 183-203): `coll.Find` with the empty filter returns
every document; `ret` starts as the nil slice (`none`) and gets one object appended per
document. `none` as a result stands for the panic when the cursor cannot be read. -/
def getAllBooksForAPI (drv : Driver) (coll : Collection) : Option (Option (List JsonObject)) :=
  if drv.cursorFails then none
  else
    let results := coll
    some (results.foldl (fun ret res => some (ret.getD [] ++ [bookJson res])) none)

/-- The handler of `GET /api/books` (lines 318-321); `none` when `getAllBooksForAPI`
panics, in which case no reply is written. -/
def getBooks (drv : Driver) (coll : Collection) : Option Reply :=
  match getAllBooksForAPI drv coll with
  | none => none
  | some books => some ⟨200, .array books⟩

/-- The handler of `POST /api/books` (lines 323-390). -/
def postBooks (drv : Driver) (bind : Option RequestData) (coll : Collection) : Outcome :=
  match bind with
  | none => ⟨errorReply 400 "Invalid request body", coll, []⟩
  | some requestData =>
    let (id, hasID) := commaOk requestData "id"
    let (title, hasTitle) := commaOk requestData "title"
    let (author, hasAuthor) := commaOk requestData "author"
    if !hasID || id == "" || !hasTitle || title == "" || !hasAuthor || author == "" then
      ⟨errorReply 400 "Missing required fields: id, title, and author are mandatory", coll, []⟩
    else
      let newBook : BookStore :=
        { MongoID := 0
          ID := id
          BookName := title
          BookAuthor := author
          BookPages := index requestData "pages"
          BookEdition := index requestData "edition"
          BookYear := index requestData "year" }
      if drv.countFails then
        ⟨errorReply 500 "Failed to check for existing book", coll,
          [.countDocuments newBook.ID]⟩
      else
        let existingCount := CountDocuments coll newBook.ID
        if existingCount > 0 then
          ⟨errorReply 409 "A book with this ID already exists", coll,
            [.countDocuments newBook.ID]⟩
        else if drv.insertFails then
          ⟨errorReply 500 "Failed to create book", coll,
            [.countDocuments newBook.ID, .insertOne newBook]⟩
        else
          ⟨⟨201, .object (bookJson newBook)⟩, InsertOne coll newBook drv.newObjectID,
            [.countDocuments newBook.ID, .insertOne newBook]⟩

/-- The field updates of the `PUT` handler (lines 419-434), applied to the fetched book. -/
def updateFields (existingBook : BookStore) (requestData : RequestData) : BookStore :=
  let b := existingBook
  let b := if (commaOk requestData "title").2 && (commaOk requestData "title").1 != ""
    then { b with BookName := (commaOk requestData "title").1 } else b
  let b := if (commaOk requestData "author").2 && (commaOk requestData "author").1 != ""
    then { b with BookAuthor := (commaOk requestData "author").1 } else b
  let b := if (commaOk requestData "edition").2 && (commaOk requestData "edition").1 != ""
    then { b with BookEdition := (commaOk requestData "edition").1 } else b
  let b := if (commaOk requestData "pages").2 && (commaOk requestData "pages").1 != ""
    then { b with BookPages := (commaOk requestData "pages").1 } else b
  let b := if (commaOk requestData "year").2 && (commaOk requestData "year").1 != ""
    then { b with BookYear := (commaOk requestData "year").1 } else b
  b

/-- The handler of `PUT /api/books/:id` (lines 392-445); `id` is `c.Param("id")`. -/
def putBooks (drv : Driver) (id : String) (bind : Option RequestData) (coll : Collection) :
    Outcome :=
  match bind with
  | none => ⟨errorReply 400 "Invalid request body", coll, []⟩
  | some requestData =>
    if drv.findFails then
      ⟨errorReply 500 "Database error", coll, [.findOne id]⟩
    else
      match FindOne coll id with
      | none => ⟨errorReply 404 "Book not found", coll, [.findOne id]⟩
      | some found =>
        let existingBook := updateFields found requestData
        if drv.replaceFails then
          ⟨errorReply 500 "Failed to update book", coll,
            [.findOne id, .replaceOne id existingBook]⟩
        else
          match ReplaceOne coll id existingBook with
          | none =>
            ⟨errorReply 500 "Failed to update book", coll,
              [.findOne id, .replaceOne id existingBook]⟩
          | some coll' =>
            ⟨⟨200, .empty⟩, coll', [.findOne id, .replaceOne id existingBook]⟩

/-- The handler of `DELETE /api/books/:id` (lines 447-471); `id` is `c.Param("id")`. -/
def deleteBooks (drv : Driver) (id : String) (coll : Collection) : Outcome :=
  if drv.deleteFails then
    ⟨errorReply 500 "Failed to delete book", coll, [.deleteOne id]⟩
  else
    let result := DeleteOne coll id
    if result.2 = 0 then
      ⟨errorReply 404 "Book not found", result.1, [.deleteOne id]⟩
    else
      ⟨⟨200, .empty⟩, result.1, [.deleteOne id]⟩

/-! ## Start-up data (`cmd/main.go`, lines 98-156) -/

/-- The slice `startData` of `prepareData`. -/
def startData : List BookStore :=
  [ { MongoID := 0
      ID := "example1"
      BookName := "The Vortex"
      BookAuthor := "José Eustasio Rivera"
      BookEdition := "958-30-0804-4"
      BookPages := "292"
      BookYear := "1924" },
    { MongoID := 0
      ID := "example2"
      BookName := "Frankenstein"
      BookAuthor := "Mary Shelley"
      BookEdition := "978-3-649-64609-9"
      BookPages := "280"
      BookYear := "1818" },
    { MongoID := 0
      ID := "example3"
      BookName := "The Black Cat"
      BookAuthor := "Edgar Allan Poe"
      BookEdition := "978-3-99168-238-7"
      BookPages := "280"
      BookYear := "1843" } ]

/-- One iteration of the loop of `prepareData` (lines 133-155) for the seed record `book`:
the collection afterwards, or `none` when the process stops (`panic` on a store error,
`log.Fatal` when more than one record matches). -/
def seedBook (drv : Driver) (book : BookStore) (coll : Collection) : Option Collection :=
  if drv.cursorFails then none
  else
    let results := Find coll book
    if results.length > 1 then none
    else if results.length = 0 then
      if drv.insertFails then none
      else some (InsertOne coll book drv.newObjectID)
    else some coll

/-- The loop of `prepareData` over a list of seed records; `drv i` is the driver's
behaviour during iteration `i`. -/
def seedAll (drv : Nat → Driver) : Nat → List BookStore → Collection → Option Collection
  | _, [], coll => some coll
  | i, book :: rest, coll =>
    match seedBook (drv i) book coll with
    | none => none
    | some coll' => seedAll drv (i + 1) rest coll'

/-- The function `prepareData` (lines 98-156). -/
def prepareData (drv : Nat → Driver) (coll : Collection) : Option Collection :=
  seedAll drv 0 startData coll

/-! ## The request/response logger (`cmd/main.go`, lines 482-552) -/

/-- A byte slice. -/
abbrev Bytes := List UInt8

/-- A Go `error` value. -/
abbrev Error := String

/-- An `http.Header`, in the order in which `range` visits it. -/
abbrev Header := List (String × List String)

/-- A request body stream (`io.ReadCloser`): the bytes not yet read, and the error, if any,
with which the stream ends instead of a clean end of file. -/
structure Reader where
  unread : Bytes
  fault : Option Error
deriving DecidableEq, Repr

/-- The call `io.ReadAll(r)`: every unread byte and the error of the stream; the reader is
left drained. -/
def ReadAll (r : Reader) : (Bytes × Option Error) × Reader :=
  ((r.unread, r.fault), { r with unread := [] })

/-- The stream `io.NopCloser(bytes.NewBuffer(b))`: exactly the bytes `b`, then end of file. -/
def NewBuffer (b : Bytes) : Reader :=
  ⟨b, none⟩

/-- What a consumer that reads a request body to its end obtains (nothing from a nil body). -/
def bodyBytes : Option Reader → Bytes
  | none => []
  | some r => (ReadAll r).1.1

/-- The parts of `*http.Request` the logger touches; `Body` is `none` for a nil body. -/
structure Request where
  Method : String
  Path : String
  Header : Header
  Body : Option Reader
deriving DecidableEq, Repr

/-- The interface `http.ResponseWriter`, as far as the logger uses it: `Write` returns the
count and error and the writer afterwards. -/
class http.ResponseWriter (W : Type) where
  Header : W → Header
  Write : W → Bytes → (Nat × Option Error) × W

/-- The struct `bodyLogWriter` (lines 532-535): the embedded writer and the capture buffer. -/
structure bodyLogWriter (W : Type) where
  ResponseWriter : W
  buf : Bytes
deriving DecidableEq, Repr

/-- The method `(*bodyLogWriter).Write` (lines 537-540): capture, then the normal write. -/
def bodyLogWriter.Write {W : Type} [http.ResponseWriter W] (w : bodyLogWriter W) (b : Bytes) :
    (Nat × Option Error) × bodyLogWriter W :=
  let buf := w.buf ++ b
  let res := http.ResponseWriter.Write w.ResponseWriter b
  (res.1, { ResponseWriter := res.2, buf := buf })

/-- A `bodyLogWriter` is itself an `http.ResponseWriter`: `Header` is promoted from the
embedded writer, `Write` is the method above. -/
instance {W : Type} [http.ResponseWriter W] : http.ResponseWriter (bodyLogWriter W) where
  Header w := http.ResponseWriter.Header w.ResponseWriter
  Write w b := bodyLogWriter.Write w b

/-- The server's own response writer: the bytes sent to the client so far, the response
headers, and whether the connection still accepts writes. -/
structure ClientConn where
  sent : Bytes
  header : Header
  alive : Bool
deriving DecidableEq, Repr

/-- Writing to the client connection: all of `b` is sent while the connection is alive. -/
instance : http.ResponseWriter ClientConn where
  Header w := w.header
  Write w b :=
    if w.alive then ((b.length, none), { w with sent := w.sent ++ b })
    else ((0, some "write on closed connection"), w)

/-- A handler writing the chunks one after the other through `Write`: the results of the
calls, in order, and the writer afterwards. -/
def writeChunks {W : Type} [http.ResponseWriter W] :
    W → List Bytes → List (Nat × Option Error) × W
  | w, [] => ([], w)
  | w, b :: rest =>
    let r := http.ResponseWriter.Write w b
    let rs := writeChunks r.2 rest
    (r.1 :: rs.1, rs.2)

/-- The helper `formatHeaders` (lines 543-552). -/
def formatHeaders (h : Header) : String :=
  if h.length = 0 then "(none)\n"
  else String.join (h.map fun kv => "  " ++ kv.1 ++ ": " ++ ", ".intercalate kv.2 ++ "\n")

/-- The arguments of the `fmt.Printf` call of `LoggerRR` (lines 504-526): one diagnostic
block. The status text is `http.StatusText` of `status`. -/
structure LogBlock where
  method : String
  path : String
  elapsedMs : Int
  requestHeaders : String
  requestBody : Bytes
  status : Nat
  responseHeaders : String
  responseBody : Bytes
deriving DecidableEq, Repr

/-- The type `*echo.Response`, as far as the logger uses it. -/
structure Response (W : Type) where
  Writer : W
  Status : Nat

/-- An `echo.Context` with what a handler can reach from it: the request, the response,
the clock (milliseconds), standard output as the list of blocks printed, and the rest of
the program state `app` (for the book handlers, the collection). -/
structure Context (W σ : Type) where
  request : Request
  response : Response W
  now : Int
  stdout : List LogBlock
  app : σ

/-- An `echo.HandlerFunc`: returns its `error` (`none` for nil) and the context as the
handler leaves it. -/
abbrev HandlerFunc (W σ : Type) := Context W σ → Option Error × Context W σ

/-- Lines 485-497 of `LoggerRR`: the request body is read and restored, the response writer
is wrapped. Returns `reqBody` and the context that is handed to `next`. -/
def LoggerRR.wrap {W σ : Type} (c : Context W σ) : Bytes × Context (bodyLogWriter W) σ :=
  let req := c.request
  let res := c.response
  let cloned : Bytes × Option Reader :=
    match req.Body with
    | none => ([], none)
    | some body =>
      let reqBody := (ReadAll body).1.1
      (reqBody, some (NewBuffer reqBody))
  let blw : bodyLogWriter W := { ResponseWriter := res.Writer, buf := [] }
  (cloned.1,
    { request := { req with Body := cloned.2 }
      response := { Writer := blw, Status := res.Status }
      now := c.now
      stdout := c.stdout
      app := c.app })

/-- The middleware `LoggerRR` (lines 483-530). -/
def LoggerRR {W σ : Type} [http.ResponseWriter W] (next : HandlerFunc (bodyLogWriter W) σ)
    (c : Context W σ) : Option Error × Context (bodyLogWriter W) σ :=
  let reqBody := (LoggerRR.wrap c).1
  let c1 := (LoggerRR.wrap c).2
  let start := c1.now
  let out := next c1
  let err := out.1
  let c2 := out.2
  let elapsed := c2.now - start
  let block : LogBlock :=
    { method := c2.request.Method
      path := c2.request.Path
      elapsedMs := elapsed
      requestHeaders := formatHeaders c2.request.Header
      requestBody := reqBody
      status := c2.response.Status
      responseHeaders := formatHeaders (http.ResponseWriter.Header c2.response.Writer)
      responseBody := c2.response.Writer.buf }
  (err, { c2 with stdout := c2.stdout ++ [block] })

/-- A handler that reads its request body to the end and keeps what it read in `app`. -/
def readBodyHandler {W : Type} : HandlerFunc W Bytes := fun c =>
  match c.request.Body with
  | none => (none, { c with app := [] })
  | some body =>
    let read := ReadAll body
    (read.1.2, { c with request := { c.request with Body := some read.2 }, app := read.1.1 })

/-- A handler that writes the chunks to the response, one `Write` each, and returns `err`. -/
def writingHandler {W σ : Type} [http.ResponseWriter W] (chunks : List Bytes)
    (err : Option Error) : HandlerFunc W σ := fun c =>
  (err, { c with response := { c.response with Writer := (writeChunks c.response.Writer chunks).2 } })

/-- A handler that counts its invocations in `app` and returns `err`. -/
def countingHandler {W : Type} (err : Option Error) : HandlerFunc W Nat := fun c =>
  (err, { c with app := c.app + 1 })

/-! ## Sequential executions and the vocabulary of the specification -/

/-- One request to the resource handlers, with the driver's behaviour during it. -/
inductive Call where
  | create (drv : Driver) (bind : Option RequestData)
  | update (drv : Driver) (id : String) (bind : Option RequestData)
  | delete (drv : Driver) (id : String)
deriving DecidableEq, Repr

/-- The handler a request is routed to. -/
def Call.run : Call → Collection → Outcome
  | .create drv bind, coll => postBooks drv bind coll
  | .update drv id bind, coll => putBooks drv id bind coll
  | .delete drv id, coll => deleteBooks drv id coll

/-- The collection after the requests have been handled one after the other. -/
def runCalls : List Call → Collection → Collection
  | [], coll => coll
  | call :: rest, coll => runCalls rest (call.run coll).coll

/-- No two documents of the collection share an `ID` (the external identifier). -/
def UniqueIDs (coll : Collection) : Prop :=
  (coll.map fun b => b.ID).Nodup

instance (coll : Collection) : Decidable (UniqueIDs coll) := by
  unfold UniqueIDs; infer_instance

/-- The key is present in the mapping with a non-empty value. -/
def present (fields : RequestData) (key : String) : Prop :=
  ∃ v, fields.lookup key = some v ∧ v ≠ ""

instance (fields : RequestData) (key : String) : Decidable (present fields key) :=
  match h : fields.lookup key with
  | none => isFalse (by rintro ⟨v, hv, -⟩; rw [h] at hv; cases hv)
  | some v =>
    if hv : v = "" then isFalse (by rintro ⟨w, hw, hne⟩; rw [h] at hw; cases hw; exact hne hv)
    else isTrue ⟨v, h, hv⟩

/-- A well-formed creation request: `id`, `title` and `author` present and non-empty. -/
def wellFormed (fields : RequestData) : Prop :=
  present fields "id" ∧ present fields "title" ∧ present fields "author"

instance (fields : RequestData) : Decidable (wellFormed fields) := by
  unfold wellFormed; infer_instance

/-- The merge rule of the specification for one attribute: the request's value when the key
is present with a non-empty value, the old value otherwise. -/
def sparseValue (fields : RequestData) (key : String) (old : String) : String :=
  match fields.lookup key with
  | some v => if v = "" then old else v
  | none => old

/-- The value of an optional creation field: verbatim, the empty string when absent. -/
def optionalValue (fields : RequestData) (key : String) : String :=
  (fields.lookup key).getD ""

/-- Every document of the collection has a non-empty title and a non-empty author. -/
def TitledAndAuthored (coll : Collection) : Prop :=
  ∀ b ∈ coll, b.BookName ≠ "" ∧ b.BookAuthor ≠ ""

instance (coll : Collection) : Decidable (TitledAndAuthored coll) := by
  unfold TitledAndAuthored; infer_instance

/-! ## Lemmas on the store operations -/

theorem FindOne_ID {coll : Collection} {id : String} {r : BookStore}
    (h : FindOne coll id = some r) : r.ID = id := by
  induction coll with
  | nil => simp [FindOne] at h
  | cons d rest ih =>
    unfold FindOne at h
    split at h
    · cases h; assumption
    · exact ih h

theorem FindOne_mem {coll : Collection} {id : String} {r : BookStore}
    (h : FindOne coll id = some r) : r ∈ coll := by
  induction coll with
  | nil => simp [FindOne] at h
  | cons d rest ih =>
    unfold FindOne at h
    split at h
    · cases h; exact List.mem_cons_self _ _
    · exact List.mem_cons_of_mem _ (ih h)

theorem FindOne_eq_none {coll : Collection} {id : String} :
    FindOne coll id = none ↔ ∀ b ∈ coll, b.ID ≠ id := by
  induction coll with
  | nil => simp [FindOne]
  | cons d rest ih =>
    unfold FindOne
    by_cases hd : d.ID = id
    · simp [hd]
    · simp [hd, ih]

theorem CountDocuments_eq_zero {coll : Collection} {id : String} :
    CountDocuments coll id = 0 ↔ ∀ b ∈ coll, b.ID ≠ id := by
  induction coll with
  | nil => simp [CountDocuments]
  | cons d rest ih =>
    unfold CountDocuments
    by_cases hd : d.ID = id
    · simp [hd]
    · simp [hd, ih]

theorem CountDocuments_pos {coll : Collection} {id : String} :
    0 < CountDocuments coll id ↔ ∃ b ∈ coll, b.ID = id := by
  rw [Nat.pos_iff_ne_zero, Ne, CountDocuments_eq_zero]
  push_neg
  rfl

theorem CountDocuments_append (c₁ c₂ : Collection) (id : String) :
    CountDocuments (c₁ ++ c₂) id = CountDocuments c₁ id + CountDocuments c₂ id := by
  induction c₁ with
  | nil => simp [CountDocuments]
  | cons d rest ih => simp [CountDocuments, ih, Nat.add_assoc]

theorem FindOne_append_of_none {c₁ c₂ : Collection} {id : String}
    (h : FindOne c₁ id = none) : FindOne (c₁ ++ c₂) id = FindOne c₂ id := by
  induction c₁ with
  | nil => rfl
  | cons d rest ih =>
    unfold FindOne at h
    split at h
    · cases h
    · rename_i hd
      simp [FindOne, hd, ih h]

theorem FindOne_append_of_some {c₁ c₂ : Collection} {id : String} {r : BookStore}
    (h : FindOne c₁ id = some r) : FindOne (c₁ ++ c₂) id = some r := by
  induction c₁ with
  | nil => simp [FindOne] at h
  | cons d rest ih =>
    unfold FindOne at h
    split at h
    · rename_i hd
      simp [FindOne, hd, h]
    · rename_i hd
      simp [FindOne, hd, ih h]

/-- Replacing the document that `FindOne` returned by one with the same `_id` and `ID`
succeeds, keeps every `ID` in place, and makes the replacement the document found. -/
theorem ReplaceOne_found {coll : Collection} {id : String} {r repl : BookStore}
    (h : FindOne coll id = some r) (hoid : repl.MongoID = r.MongoID) (hid : repl.ID = id) :
    ∃ coll', ReplaceOne coll id repl = some coll' ∧ FindOne coll' id = some repl ∧
      (coll'.map fun b => b.ID) = (coll.map fun b => b.ID) ∧
      (∀ k, k ≠ id → FindOne coll' k = FindOne coll k) := by
  induction coll with
  | nil => simp [FindOne] at h
  | cons d rest ih =>
    unfold FindOne at h
    by_cases hd : d.ID = id
    · rw [if_pos hd] at h
      have hdr : d = r := Option.some.inj h
      rw [← hdr] at hoid
      have hrepl : ({ repl with MongoID := d.MongoID } : BookStore) = repl := by
        rw [← hoid]
      refine ⟨repl :: rest, ?_, ?_, ?_, ?_⟩
      · unfold ReplaceOne
        rw [if_pos hd]
        by_cases h0 : repl.MongoID = 0
        · rw [if_pos h0, hrepl]
        · rw [if_neg h0, if_pos hoid]
      · simp [FindOne, hid]
      · simp [hid, hd]
      · intro k hk
        have h1 : ¬ repl.ID = k := by rw [hid]; exact fun e => hk e.symm
        have h2 : ¬ d.ID = k := by rw [hd]; exact fun e => hk e.symm
        simp [FindOne, h1, h2]
    · rw [if_neg hd] at h
      obtain ⟨c, hc, hf, hm, hk⟩ := ih h
      refine ⟨d :: c, ?_, ?_, ?_, ?_⟩
      · unfold ReplaceOne
        rw [if_neg hd, hc]; rfl
      · simp [FindOne, hd, hf]
      · simp [hm]
      · intro k hkne
        unfold FindOne
        rw [hk k hkne]

theorem ReplaceOne_IDs {coll coll' : Collection} {id : String} {repl : BookStore}
    (hid : repl.ID = id) (h : ReplaceOne coll id repl = some coll') :
    (coll'.map fun b => b.ID) = (coll.map fun b => b.ID) := by
  induction coll generalizing coll' with
  | nil => simp [ReplaceOne] at h; subst h; rfl
  | cons d rest ih =>
    unfold ReplaceOne at h
    by_cases hd : d.ID = id
    · rw [if_pos hd] at h
      split at h
      · cases h; simp [hid, hd]
      · split at h
        · cases h; simp [hid, hd]
        · cases h
    · rw [if_neg hd] at h
      cases hr : ReplaceOne rest id repl with
      | none => rw [hr] at h; cases h
      | some c =>
        rw [hr] at h
        cases h
        simp [ih hr]

theorem DeleteOne_count (coll : Collection) (id : String) :
    (DeleteOne coll id).2 = if 0 < CountDocuments coll id then 1 else 0 := by
  induction coll with
  | nil => simp [DeleteOne, CountDocuments]
  | cons d rest ih =>
    unfold DeleteOne CountDocuments
    by_cases hd : d.ID = id
    · simp [hd]
    · simp [hd, ih]

theorem DeleteOne_sublist (coll : Collection) (id : String) :
    List.Sublist (DeleteOne coll id).1 coll := by
  induction coll with
  | nil => simp [DeleteOne]
  | cons d rest ih =>
    unfold DeleteOne
    by_cases hd : d.ID = id
    · simp [hd]
    · simp [hd, ih]

theorem DeleteOne_CountDocuments_same (coll : Collection) (id : String) :
    CountDocuments (DeleteOne coll id).1 id = CountDocuments coll id - 1 := by
  induction coll with
  | nil => simp [DeleteOne, CountDocuments]
  | cons d rest ih =>
    unfold DeleteOne
    by_cases hd : d.ID = id
    · simp [hd, CountDocuments]
    · simp [hd, CountDocuments, ih]

theorem DeleteOne_filter_other (coll : Collection) (id : String) :
    (DeleteOne coll id).1.filter (fun b => b.ID ≠ id) = coll.filter (fun b => b.ID ≠ id) := by
  induction coll with
  | nil => simp [DeleteOne]
  | cons d rest ih =>
    unfold DeleteOne
    by_cases hd : d.ID = id
    · simp [hd]
    · simp only [if_neg hd, List.filter_cons, ih]

theorem DeleteOne_none (coll : Collection) (id : String) (h : ∀ b ∈ coll, b.ID ≠ id) :
    DeleteOne coll id = (coll, 0) := by
  induction coll with
  | nil => simp [DeleteOne]
  | cons d rest ih =>
    have hd : ¬ d.ID = id := h d (List.mem_cons_self _ _)
    have hr := ih (fun b hb => h b (List.mem_cons_of_mem _ hb))
    unfold DeleteOne
    simp [hd, hr]

theorem UniqueIDs_count_le {coll : Collection} (h : UniqueIDs coll) (id : String) :
    CountDocuments coll id ≤ 1 := by
  induction coll with
  | nil => simp [CountDocuments]
  | cons d rest ih =>
    unfold UniqueIDs at h
    simp only [List.map_cons, List.nodup_cons] at h
    unfold CountDocuments
    by_cases hd : d.ID = id
    · have : CountDocuments rest id = 0 := by
        rw [CountDocuments_eq_zero]
        intro b hb hbid
        exact h.1 (List.mem_map.mpr ⟨b, hb, by rw [hbid, hd]⟩)
      simp [hd, this]
    · simp [hd]
      exact ih h.2

/-! ## Lemmas on the handlers -/

theorem commaOk_eq (m : RequestData) (k : String) :
    commaOk m k = ((m.lookup k).getD "", (m.lookup k).isSome) := by
  unfold commaOk; cases m.lookup k <;> rfl

theorem updateFields_ID (r : BookStore) (m : RequestData) : (updateFields r m).ID = r.ID := by
  unfold updateFields
  simp only
  repeat' split
  all_goals rfl

theorem updateFields_MongoID (r : BookStore) (m : RequestData) :
    (updateFields r m).MongoID = r.MongoID := by
  unfold updateFields
  simp only
  repeat' split
  all_goals rfl

theorem updateFields_BookName (r : BookStore) (m : RequestData) :
    (updateFields r m).BookName = sparseValue m "title" r.BookName := by
  unfold updateFields sparseValue
  simp only [commaOk_eq]
  cases m.lookup "title" with
  | none =>
    simp
    repeat' split
    all_goals rfl
  | some v =>
    by_cases hv : v = ""
    · simp [hv]
      repeat' split
      all_goals rfl
    · simp [hv]
      repeat' split
      all_goals rfl

theorem updateFields_BookAuthor (r : BookStore) (m : RequestData) :
    (updateFields r m).BookAuthor = sparseValue m "author" r.BookAuthor := by
  unfold updateFields sparseValue
  simp only [commaOk_eq]
  cases m.lookup "author" with
  | none =>
    simp
    repeat' split
    all_goals rfl
  | some v =>
    by_cases hv : v = ""
    · simp [hv]
      repeat' split
      all_goals rfl
    · simp [hv]
      repeat' split
      all_goals rfl

theorem updateFields_BookEdition (r : BookStore) (m : RequestData) :
    (updateFields r m).BookEdition = sparseValue m "edition" r.BookEdition := by
  unfold updateFields sparseValue
  simp only [commaOk_eq]
  cases m.lookup "edition" with
  | none =>
    simp
    repeat' split
    all_goals rfl
  | some v =>
    by_cases hv : v = ""
    · simp [hv]
      repeat' split
      all_goals rfl
    · simp [hv]
      repeat' split
      all_goals rfl

theorem updateFields_BookPages (r : BookStore) (m : RequestData) :
    (updateFields r m).BookPages = sparseValue m "pages" r.BookPages := by
  unfold updateFields sparseValue
  simp only [commaOk_eq]
  cases m.lookup "pages" with
  | none =>
    simp
    repeat' split
    all_goals rfl
  | some v =>
    by_cases hv : v = ""
    · simp [hv]
      repeat' split
      all_goals rfl
    · simp [hv]
      repeat' split
      all_goals rfl

theorem updateFields_BookYear (r : BookStore) (m : RequestData) :
    (updateFields r m).BookYear = sparseValue m "year" r.BookYear := by
  unfold updateFields sparseValue
  simp only [commaOk_eq]
  cases m.lookup "year" with
  | none =>
    simp
    repeat' split
    all_goals rfl
  | some v =>
    by_cases hv : v = ""
    · simp [hv]
      repeat' split
      all_goals rfl
    · simp [hv]

/-! ## The claims -/

/-- C1. Update is a sparse merge: when `FindOne` returns the record `r` for `id` (store calls
succeeding), the `PUT` handler answers 200 with an empty body and persists, in place of `r`,
a record `p` that keeps `r`'s `ID` (whatever the mapping holds under `"id"`) and whose
title, author, edition, pages and year are the request's value when the key is present
with a non-empty value and `r`'s value otherwise; in particular an empty title in the
request leaves the title as it was. -/
theorem put_sparse_merge (drv : Driver) (id : String) (fields : RequestData)
    (coll : Collection) (r : BookStore) (hfound : FindOne coll id = some r)
    (hfind : drv.findFails = false) (hreplace : drv.replaceFails = false) :
    ∃ p : BookStore,
      (putBooks drv id (some fields) coll).reply = ⟨200, .empty⟩ ∧
      (putBooks drv id (some fields) coll).calls = [.findOne id, .replaceOne id p] ∧
      FindOne (putBooks drv id (some fields) coll).coll id = some p ∧
      p.ID = id ∧ p.ID = r.ID ∧ p.MongoID = r.MongoID ∧
      p.BookName = sparseValue fields "title" r.BookName ∧
      p.BookAuthor = sparseValue fields "author" r.BookAuthor ∧
      p.BookEdition = sparseValue fields "edition" r.BookEdition ∧
      p.BookPages = sparseValue fields "pages" r.BookPages ∧
      p.BookYear = sparseValue fields "year" r.BookYear ∧
      (fields.lookup "title" = some "" → p.BookName = r.BookName) := by
  have hrid : r.ID = id := FindOne_ID hfound
  have hpid : (updateFields r fields).ID = id := by rw [updateFields_ID, hrid]
  obtain ⟨c, hc, hf, -, -⟩ :=
    ReplaceOne_found hfound (updateFields_MongoID r fields) hpid
  refine ⟨updateFields r fields, ?_, ?_, ?_, hpid, updateFields_ID r fields,
    updateFields_MongoID r fields, updateFields_BookName r fields,
    updateFields_BookAuthor r fields, updateFields_BookEdition r fields,
    updateFields_BookPages r fields, updateFields_BookYear r fields, ?_⟩
  · simp [putBooks, hfind, hreplace, hfound, hc]
  · simp [putBooks, hfind, hreplace, hfound, hc]
  · simp [putBooks, hfind, hreplace, hfound, hc, hf]
  · intro ht
    rw [updateFields_BookName]
    simp [sparseValue, ht]

/-- Witness for C1: the record titled "A" under `b1`, updated with an empty title, an `id`
key and a page count. -/
theorem put_sparse_merge_witness :
    FindOne [⟨7, "b1", "A", "X", "", "", ""⟩] "b1" = some ⟨7, "b1", "A", "X", "", "", ""⟩ ∧
    ∃ p : BookStore,
      (putBooks (Driver.healthy 9) "b1" (some [("title", ""), ("id", "zz"), ("pages", "42")])
        [⟨7, "b1", "A", "X", "", "", ""⟩]).reply = ⟨200, .empty⟩ ∧
      FindOne (putBooks (Driver.healthy 9) "b1"
        (some [("title", ""), ("id", "zz"), ("pages", "42")])
        [⟨7, "b1", "A", "X", "", "", ""⟩]).coll "b1" = some p ∧
      p.ID = "b1" ∧ p.BookName = "A" ∧ p.BookPages = "42" := by
  refine ⟨by decide, ?_⟩
  obtain ⟨p, h1, -, h3, h4, -, -, h7, -, -, h10, -, -⟩ :=
    put_sparse_merge (Driver.healthy 9) "b1" [("title", ""), ("id", "zz"), ("pages", "42")]
      [⟨7, "b1", "A", "X", "", "", ""⟩] ⟨7, "b1", "A", "X", "", "", ""⟩ (by decide) rfl rfl
  exact ⟨p, h1, h3, h4, by rw [h7]; decide, by rw [h10]; decide⟩

theorem commaOk_of_lookup {m : RequestData} {k v : String} (h : m.lookup k = some v) :
    commaOk m k = (v, true) := by
  simp [commaOk, h]

theorem index_eq_optionalValue (m : RequestData) (k : String) :
    index m k = optionalValue m k := by
  unfold index optionalValue
  rw [commaOk_eq]

/-- The required-field test of the `POST` handler (line 338) fails exactly on the
well-formed requests. -/
theorem required_check_iff (m : RequestData) :
    ((!(commaOk m "id").2 || (commaOk m "id").1 == "" || !(commaOk m "title").2 ||
      (commaOk m "title").1 == "" || !(commaOk m "author").2 ||
      (commaOk m "author").1 == "") = true) ↔ ¬ wellFormed m := by
  unfold wellFormed present
  simp only [commaOk_eq]
  cases m.lookup "id" <;> cases m.lookup "title" <;> cases m.lookup "author" <;>
    (simp; try tauto)

/-- C2. Create on a fresh id: when `id`, `title` and `author` are present and non-empty, no
record of the collection carries that id and the store calls succeed, the `POST` handler
answers 201 with the object whose `id`, `title`, `author` are the inputs and whose `pages`,
`edition`, `year` are the supplied values (the empty string when absent), and the collection
afterwards is the old collection followed by exactly one record with those six values. -/
theorem post_fresh_id (drv : Driver) (fields : RequestData) (coll : Collection)
    (id title author : String)
    (hid : fields.lookup "id" = some id) (hidne : id ≠ "")
    (htitle : fields.lookup "title" = some title) (htne : title ≠ "")
    (hauthor : fields.lookup "author" = some author) (hane : author ≠ "")
    (hfresh : ∀ b ∈ coll, b.ID ≠ id)
    (hcount : drv.countFails = false) (hinsert : drv.insertFails = false) :
    ∃ b : BookStore,
      (postBooks drv (some fields) coll).reply =
        ⟨201, .object [("id", id), ("title", title), ("author", author),
          ("pages", optionalValue fields "pages"),
          ("edition", optionalValue fields "edition"),
          ("year", optionalValue fields "year")]⟩ ∧
      (postBooks drv (some fields) coll).coll = coll ++ [b] ∧
      b.ID = id ∧ b.BookName = title ∧ b.BookAuthor = author ∧
      b.BookPages = optionalValue fields "pages" ∧
      b.BookEdition = optionalValue fields "edition" ∧
      b.BookYear = optionalValue fields "year" ∧
      b.MongoID = drv.newObjectID := by
  have hzero : CountDocuments coll id = 0 := CountDocuments_eq_zero.mpr hfresh
  refine ⟨⟨drv.newObjectID, id, title, author, optionalValue fields "edition",
    optionalValue fields "pages", optionalValue fields "year"⟩, ?_, ?_, rfl, rfl, rfl, rfl,
    rfl, rfl, rfl⟩
  · simp [postBooks, commaOk_of_lookup hid, commaOk_of_lookup htitle,
      commaOk_of_lookup hauthor, hidne, htne, hane, hcount, hinsert, hzero, bookJson,
      index_eq_optionalValue]
  · simp [postBooks, commaOk_of_lookup hid, commaOk_of_lookup htitle,
      commaOk_of_lookup hauthor, hidne, htne, hane, hcount, hinsert, hzero, InsertOne,
      index_eq_optionalValue]

/-- Witness for C2: creating `b1` with only the required fields in a collection that holds
another book. -/
theorem post_fresh_id_witness :
    (∀ b ∈ ([⟨7, "b0", "A", "X", "", "", ""⟩] : Collection), b.ID ≠ "b1") ∧
    ∃ b : BookStore,
      (postBooks (Driver.healthy 9) (some [("id", "b1"), ("title", "T"), ("author", "A")])
        [⟨7, "b0", "A", "X", "", "", ""⟩]).coll = [⟨7, "b0", "A", "X", "", "", ""⟩] ++ [b] ∧
      b = ⟨9, "b1", "T", "A", "", "", ""⟩ := by
  have hfresh : ∀ b ∈ ([⟨7, "b0", "A", "X", "", "", ""⟩] : Collection), b.ID ≠ "b1" := by
    decide
  refine ⟨hfresh, ?_⟩
  obtain ⟨b, -, h2, h3, h4, h5, h6, h7, h8, h9⟩ :=
    post_fresh_id (Driver.healthy 9) [("id", "b1"), ("title", "T"), ("author", "A")]
      [⟨7, "b0", "A", "X", "", "", ""⟩] "b1" "T" "A" (by decide) (by decide) (by decide)
      (by decide) (by decide) (by decide) hfresh rfl rfl
  refine ⟨b, h2, ?_⟩
  cases b
  simp only [BookStore.mk.injEq]
  exact ⟨h9, h3, h4, h5, h7, h6, h8⟩

/-- C3. Create validation: once the body is parsed, the `POST` handler answers 400 if and
only if one of `id`, `title`, `author` is absent from the mapping or is the empty string,
whatever the store and the driver do; and then it issues no store call, so the collection
is unchanged. -/
theorem post_validation (drv : Driver) (fields : RequestData) (coll : Collection) :
    ((postBooks drv (some fields) coll).reply.status = 400 ↔
      ((fields.lookup "id" = none ∨ fields.lookup "id" = some "") ∨
       (fields.lookup "title" = none ∨ fields.lookup "title" = some "") ∨
       (fields.lookup "author" = none ∨ fields.lookup "author" = some ""))) ∧
    ((postBooks drv (some fields) coll).reply.status = 400 →
      (postBooks drv (some fields) coll).calls = [] ∧
      (postBooks drv (some fields) coll).coll = coll ∧
      (postBooks drv (some fields) coll).reply =
        errorReply 400 "Missing required fields: id, title, and author are mandatory") := by
  have hmiss : ¬ wellFormed fields ↔
      ((fields.lookup "id" = none ∨ fields.lookup "id" = some "") ∨
       (fields.lookup "title" = none ∨ fields.lookup "title" = some "") ∨
       (fields.lookup "author" = none ∨ fields.lookup "author" = some "")) := by
    unfold wellFormed present
    cases fields.lookup "id" <;> cases fields.lookup "title" <;>
      cases fields.lookup "author" <;> (simp; try tauto)
  by_cases hwf : wellFormed fields
  · have hchk := (required_check_iff fields).not.mpr (not_not.mpr hwf)
    have hst : (postBooks drv (some fields) coll).reply.status ≠ 400 := by
      simp only [postBooks]
      rw [if_neg hchk]
      repeat' split
      all_goals simp [errorReply]
    exact ⟨⟨fun h => absurd h hst, fun h => absurd hwf (hmiss.mpr h)⟩, fun h => absurd h hst⟩
  · have hchk := (required_check_iff fields).mpr hwf
    have hout : postBooks drv (some fields) coll =
        ⟨errorReply 400 "Missing required fields: id, title, and author are mandatory",
          coll, []⟩ := by
      simp only [postBooks]
      rw [if_pos hchk]
    rw [hout]
    exact ⟨⟨fun _ => hmiss.mp hwf, fun _ => rfl⟩, fun _ => ⟨rfl, rfl, rfl⟩⟩

/-- The `POST` handler on a well-formed request whose id is already in the collection. -/
theorem postBooks_existing {drv : Driver} {fields : RequestData} {coll : Collection}
    (hwf : wellFormed fields) (hcount : drv.countFails = false)
    (hex : 0 < CountDocuments coll (index fields "id")) :
    postBooks drv (some fields) coll =
      ⟨errorReply 409 "A book with this ID already exists", coll,
        [.countDocuments (index fields "id")]⟩ := by
  have hchk := (required_check_iff fields).not.mpr (not_not.mpr hwf)
  simp only [postBooks]
  rw [if_neg hchk]
  simp only [index] at hex
  simp [hcount, hex, index]

/-- The `POST` handler answers 201 only after inserting a record with the request's id. -/
theorem postBooks_created {drv : Driver} {fields : RequestData} {coll : Collection}
    (h : (postBooks drv (some fields) coll).reply.status = 201) :
    ∃ b : BookStore, (postBooks drv (some fields) coll).coll = coll ++ [b] ∧
      b.ID = index fields "id" := by
  simp only [postBooks] at h ⊢
  split at h
  · simp [errorReply] at h
  · split at h
    · simp [errorReply] at h
    · split at h
      · simp [errorReply] at h
      · split at h
        · simp [errorReply] at h
        · rename_i h1 h2 h3 h4
          rw [if_neg h1, if_neg h2, if_neg h3, if_neg h4]
          refine ⟨_, rfl, ?_⟩
          simp [index]

/-- C4. Create conflict: for a well-formed creation request, with the count call
succeeding, (1) if the collection already holds a record with the request's id, the `POST`
handler answers 409, issues only the count call and leaves the collection unchanged;
(2) hence, after an earlier `POST` that created that id (answer 201), the second attempt
answers 409 and the collection, with the record stored by the first attempt, is exactly as
the first attempt left it, whatever title, author and optional fields the second carries. -/
theorem post_conflict (drv drv₀ : Driver) (fields fields₀ : RequestData) (coll : Collection)
    (hwf : wellFormed fields) (hcount : drv.countFails = false) :
    ((∃ b ∈ coll, b.ID = index fields "id") →
      (postBooks drv (some fields) coll).reply.status = 409 ∧
      (postBooks drv (some fields) coll).coll = coll ∧
      (postBooks drv (some fields) coll).calls = [.countDocuments (index fields "id")]) ∧
    ((postBooks drv₀ (some fields₀) coll).reply.status = 201 →
      index fields₀ "id" = index fields "id" →
      (postBooks drv (some fields) (postBooks drv₀ (some fields₀) coll).coll).reply.status
        = 409 ∧
      (postBooks drv (some fields) (postBooks drv₀ (some fields₀) coll).coll).coll =
        (postBooks drv₀ (some fields₀) coll).coll ∧
      (postBooks drv (some fields) (postBooks drv₀ (some fields₀) coll).coll).calls =
        [.countDocuments (index fields "id")]) := by
  constructor
  · intro hex
    rw [postBooks_existing hwf hcount (CountDocuments_pos.mpr hex)]
    exact ⟨rfl, rfl, rfl⟩
  · intro hcreated hsame
    obtain ⟨b, hb, hbid⟩ := postBooks_created hcreated
    have hex : 0 < CountDocuments (postBooks drv₀ (some fields₀) coll).coll
        (index fields "id") := by
      rw [CountDocuments_pos]
      exact ⟨b, by rw [hb]; simp, by rw [hbid, hsame]⟩
    rw [postBooks_existing hwf hcount hex]
    exact ⟨rfl, rfl, rfl⟩

/-- Witness for C4: `b1` is created, then a second request for `b1` with another title,
author and page count is refused and the stored record is the first one. -/
theorem post_conflict_witness :
    wellFormed [("id", "b1"), ("title", "U"), ("author", "B"), ("pages", "5")] ∧
    (postBooks (Driver.healthy 3) (some [("id", "b1"), ("title", "T"), ("author", "A")])
      []).reply.status = 201 ∧
    (postBooks (Driver.healthy 4)
      (some [("id", "b1"), ("title", "U"), ("author", "B"), ("pages", "5")])
      (postBooks (Driver.healthy 3) (some [("id", "b1"), ("title", "T"), ("author", "A")])
        []).coll).reply.status = 409 ∧
    (postBooks (Driver.healthy 4)
      (some [("id", "b1"), ("title", "U"), ("author", "B"), ("pages", "5")])
      (postBooks (Driver.healthy 3) (some [("id", "b1"), ("title", "T"), ("author", "A")])
        []).coll).coll = [⟨3, "b1", "T", "A", "", "", ""⟩] := by
  have hwf : wellFormed [("id", "b1"), ("title", "U"), ("author", "B"), ("pages", "5")] := by
    decide
  have h201 : (postBooks (Driver.healthy 3)
      (some [("id", "b1"), ("title", "T"), ("author", "A")]) []).reply.status = 201 := by
    decide
  have h := (post_conflict (Driver.healthy 4) (Driver.healthy 3)
    [("id", "b1"), ("title", "U"), ("author", "B"), ("pages", "5")]
    [("id", "b1"), ("title", "T"), ("author", "A")] [] hwf rfl).2 h201 (by decide)
  refine ⟨hwf, h201, h.1, ?_⟩
  rw [h.2.1]
  decide

/-- C5. Update on an unknown id: when no record of the collection carries `id` (the find
call succeeding), the `PUT` handler answers 404, issues the find call only (no replace) and
leaves the collection unchanged, whatever the request mapping holds. -/
theorem put_unknown_id (drv : Driver) (id : String) (fields : RequestData)
    (coll : Collection) (hnone : ∀ b ∈ coll, b.ID ≠ id) (hfind : drv.findFails = false) :
    (putBooks drv id (some fields) coll).reply = errorReply 404 "Book not found" ∧
    (putBooks drv id (some fields) coll).reply.status = 404 ∧
    (putBooks drv id (some fields) coll).coll = coll ∧
    (putBooks drv id (some fields) coll).calls = [.findOne id] := by
  have h : FindOne coll id = none := FindOne_eq_none.mpr hnone
  simp [putBooks, hfind, h, errorReply]

/-- Witness for C5: updating `b9` in a collection that only holds `b1`. -/
theorem put_unknown_id_witness :
    (∀ b ∈ ([⟨7, "b1", "A", "X", "", "", ""⟩] : Collection), b.ID ≠ "b9") ∧
    (putBooks (Driver.healthy 0) "b9" (some [("title", "Z")])
      [⟨7, "b1", "A", "X", "", "", ""⟩]).reply.status = 404 ∧
    (putBooks (Driver.healthy 0) "b9" (some [("title", "Z")])
      [⟨7, "b1", "A", "X", "", "", ""⟩]).coll = [⟨7, "b1", "A", "X", "", "", ""⟩] := by
  have hnone : ∀ b ∈ ([⟨7, "b1", "A", "X", "", "", ""⟩] : Collection), b.ID ≠ "b9" := by
    decide
  have h := put_unknown_id (Driver.healthy 0) "b9" [("title", "Z")]
    [⟨7, "b1", "A", "X", "", "", ""⟩] hnone rfl
  exact ⟨hnone, h.2.1, h.2.2.1⟩

/-- Outside the uniqueness invariant: the seeding run again after a `PUT` changed the page
count of `example1` leaves two records under that id, and both `DELETE` requests for
`example1` then answer 200. -/
theorem duplicate_ids_reachable :
    ∃ coll₁ coll₂ : Collection,
      prepareData (fun i => Driver.healthy (100 + i)) [] = some coll₁ ∧
      prepareData (fun i => Driver.healthy (200 + i))
        (putBooks (Driver.healthy 0) "example1" (some [("pages", "300")]) coll₁).coll
        = some coll₂ ∧
      CountDocuments coll₂ "example1" = 2 ∧
      (deleteBooks (Driver.healthy 0) "example1" coll₂).reply.status = 200 ∧
      (deleteBooks (Driver.healthy 0) "example1"
        (deleteBooks (Driver.healthy 0) "example1" coll₂).coll).reply.status = 200 := by
  refine ⟨_, _, rfl, rfl, ?_, ?_, ?_⟩ <;> decide

/-- Two `DELETE` requests in a row on any collection that holds a record under `id` (delete
calls succeeding): the first answers 200 with an empty body, removes one record with that
id and leaves the records with a different id as they were; a `DELETE` answers 404 exactly
when zero documents were deleted; the second answers 404 exactly when the collection held
one record under `id`. -/
theorem deleteBooks_twice (drv₁ drv₂ : Driver) (id : String) (coll : Collection)
    (hex : ∃ b ∈ coll, b.ID = id)
    (h₁ : drv₁.deleteFails = false) (h₂ : drv₂.deleteFails = false) :
    (deleteBooks drv₁ id coll).reply = ⟨200, .empty⟩ ∧
    CountDocuments (deleteBooks drv₁ id coll).coll id + 1 = CountDocuments coll id ∧
    (deleteBooks drv₁ id coll).coll.filter (fun b => b.ID ≠ id) =
      coll.filter (fun b => b.ID ≠ id) ∧
    (∀ c : Collection, (deleteBooks drv₁ id c).reply.status = 404 ↔ (DeleteOne c id).2 = 0) ∧
    ((deleteBooks drv₂ id (deleteBooks drv₁ id coll).coll).reply.status = 404 ↔
      CountDocuments coll id = 1) := by
  have hpos : 0 < CountDocuments coll id := CountDocuments_pos.mpr hex
  have hstatus : ∀ (drv : Driver), drv.deleteFails = false → ∀ c : Collection,
      (deleteBooks drv id c).reply.status = 404 ↔ (DeleteOne c id).2 = 0 := by
    intro drv hd c
    unfold deleteBooks
    rw [hd]
    by_cases hz : (DeleteOne c id).2 = 0
    · simp [hz, errorReply]
    · simp [hz]
  have hcoll : (deleteBooks drv₁ id coll).coll = (DeleteOne coll id).1 := by
    unfold deleteBooks
    rw [h₁]
    simp only [Bool.false_eq_true, if_false]
    split <;> rfl
  have hdel : (DeleteOne coll id).2 = 1 := by rw [DeleteOne_count, if_pos hpos]
  refine ⟨?_, ?_, ?_, hstatus drv₁ h₁, ?_⟩
  · unfold deleteBooks
    simp [h₁, hdel]
  · rw [hcoll, DeleteOne_CountDocuments_same]
    omega
  · rw [hcoll, DeleteOne_filter_other]
  · rw [hstatus drv₂ h₂, hcoll, DeleteOne_count, DeleteOne_CountDocuments_same]
    split <;> omega

/-- C6. Delete then delete: on every collection in which no two records share an `ID` and
that holds a record under `id` (delete calls succeeding), the first `DELETE` answers 200
with an empty body, removes the record with that id, so that none is left under `id`, and
leaves every record with a different id unchanged; the second `DELETE` of the same id
answers 404 and changes nothing; and a `DELETE` answers 404 exactly when zero documents
were deleted. -/
theorem delete_then_delete (drv₁ drv₂ : Driver) (id : String) (coll : Collection)
    (hunique : UniqueIDs coll) (hex : ∃ b ∈ coll, b.ID = id)
    (h₁ : drv₁.deleteFails = false) (h₂ : drv₂.deleteFails = false) :
    (deleteBooks drv₁ id coll).reply = ⟨200, .empty⟩ ∧
    CountDocuments (deleteBooks drv₁ id coll).coll id + 1 = CountDocuments coll id ∧
    (∀ b ∈ (deleteBooks drv₁ id coll).coll, b.ID ≠ id) ∧
    (deleteBooks drv₁ id coll).coll.filter (fun b => b.ID ≠ id) =
      coll.filter (fun b => b.ID ≠ id) ∧
    (deleteBooks drv₂ id (deleteBooks drv₁ id coll).coll).reply.status = 404 ∧
    (deleteBooks drv₂ id (deleteBooks drv₁ id coll).coll).coll
      = (deleteBooks drv₁ id coll).coll ∧
    (∀ c : Collection, (deleteBooks drv₁ id c).reply.status = 404 ↔ (DeleteOne c id).2 = 0) := by
  obtain ⟨hreply, hcount, hother, hiff, hsecond⟩ := deleteBooks_twice drv₁ drv₂ id coll hex h₁ h₂
  have hone : CountDocuments coll id = 1 := by
    have hle := UniqueIDs_count_le hunique id
    have hpos : 0 < CountDocuments coll id := CountDocuments_pos.mpr hex
    omega
  have hleft : ∀ b ∈ (deleteBooks drv₁ id coll).coll, b.ID ≠ id :=
    CountDocuments_eq_zero.mp (by omega)
  refine ⟨hreply, hcount, hleft, hother, hsecond.mpr hone, ?_, hiff⟩
  generalize (deleteBooks drv₁ id coll).coll = c at hleft
  unfold deleteBooks
  rw [h₂]
  simp only [Bool.false_eq_true, if_false]
  rw [DeleteOne_none c id hleft]
  rfl

/-- Witness for C6: deleting `b1` twice from a collection that holds it once, next to
another book. -/
theorem delete_then_delete_witness :
    UniqueIDs [⟨1, "b1", "T", "A", "", "", ""⟩, ⟨2, "b2", "U", "B", "", "", ""⟩] ∧
    (∃ b ∈ ([⟨1, "b1", "T", "A", "", "", ""⟩, ⟨2, "b2", "U", "B", "", "", ""⟩] : Collection),
      b.ID = "b1") ∧
    (deleteBooks (Driver.healthy 0) "b1"
      [⟨1, "b1", "T", "A", "", "", ""⟩, ⟨2, "b2", "U", "B", "", "", ""⟩]).reply
      = ⟨200, .empty⟩ ∧
    (deleteBooks (Driver.healthy 0) "b1"
      (deleteBooks (Driver.healthy 0) "b1"
        [⟨1, "b1", "T", "A", "", "", ""⟩, ⟨2, "b2", "U", "B", "", "", ""⟩]).coll).reply.status
      = 404 := by
  have hunique : UniqueIDs [⟨1, "b1", "T", "A", "", "", ""⟩,
      ⟨2, "b2", "U", "B", "", "", ""⟩] := by decide
  have hex : ∃ b ∈ ([⟨1, "b1", "T", "A", "", "", ""⟩,
      ⟨2, "b2", "U", "B", "", "", ""⟩] : Collection), b.ID = "b1" := by decide
  have h := delete_then_delete (Driver.healthy 0) (Driver.healthy 0) "b1"
    [⟨1, "b1", "T", "A", "", "", ""⟩, ⟨2, "b2", "U", "B", "", "", ""⟩] hunique hex rfl rfl
  exact ⟨hunique, hex, h.1, h.2.2.2.2.1⟩

/-- C7. Request replay: whatever the request body is (nil, empty or any bytes `B`, ending
cleanly or not), the body stream in the context that `LoggerRR` hands to the wrapped
handler is a fresh buffer over exactly the bytes `B` the logger read, so reading it to the
end yields `B` and nothing else; a handler that reads its body observes `B`; and the
request body of the printed block is `B`. -/
theorem logger_request_replay {W σ : Type} [http.ResponseWriter W]
    (next : HandlerFunc (bodyLogWriter W) σ) (c : Context W σ) (spied : Context W Bytes) :
    (LoggerRR.wrap c).2.request.Body = c.request.Body.map (fun r => NewBuffer r.unread) ∧
    bodyBytes (LoggerRR.wrap c).2.request.Body = bodyBytes c.request.Body ∧
    (LoggerRR.wrap c).1 = bodyBytes c.request.Body ∧
    (LoggerRR next c).1 = (next (LoggerRR.wrap c).2).1 ∧
    (∃ block : LogBlock,
      (LoggerRR next c).2.stdout = (next (LoggerRR.wrap c).2).2.stdout ++ [block] ∧
      block.requestBody = bodyBytes c.request.Body) ∧
    (LoggerRR readBodyHandler spied).2.app = bodyBytes spied.request.Body := by
  obtain ⟨⟨method, path, header, body⟩, res, now, out, app⟩ := c
  obtain ⟨⟨method', path', header', body'⟩, res', now', out', app'⟩ := spied
  refine ⟨?_, ?_, ?_, rfl, ⟨_, rfl, ?_⟩, ?_⟩
  · cases body <;> rfl
  · cases body <;> rfl
  · cases body <;> rfl
  · cases body <;> rfl
  · cases body' <;> rfl

theorem writeChunks_bodyLogWriter {W : Type} [http.ResponseWriter W] (chunks : List Bytes)
    (w : W) (buf : Bytes) :
    (writeChunks (⟨w, buf⟩ : bodyLogWriter W) chunks).1 = (writeChunks w chunks).1 ∧
    (writeChunks (⟨w, buf⟩ : bodyLogWriter W) chunks).2.ResponseWriter
      = (writeChunks w chunks).2 ∧
    (writeChunks (⟨w, buf⟩ : bodyLogWriter W) chunks).2.buf = buf ++ chunks.flatten := by
  induction chunks generalizing w buf with
  | nil => simp [writeChunks]
  | cons b rest ih =>
    have h := ih (http.ResponseWriter.Write w b).2 (buf ++ b)
    simp only [writeChunks, http.ResponseWriter.Write, bodyLogWriter.Write] at h ⊢
    refine ⟨?_, h.2.1, ?_⟩
    · rw [h.1]
    · rw [h.2.2]; simp

theorem writeChunks_ClientConn (chunks : List Bytes) (sent : Bytes) (header : Header) :
    (writeChunks (⟨sent, header, true⟩ : ClientConn) chunks).2
      = ⟨sent ++ chunks.flatten, header, true⟩ := by
  induction chunks generalizing sent with
  | nil => simp [writeChunks]
  | cons b rest ih =>
    simp only [writeChunks, http.ResponseWriter.Write]
    simp [ih]

/-- C8. Response tee: `bodyLogWriter.Write` returns exactly the count and error of the
underlying writer's `Write`, hands it the same chunk and appends the chunk to the capture
buffer; so for every sequence of chunks written through a fresh `bodyLogWriter` the
underlying writer ends as if the chunks had been written to it directly, in order, with the
same results, and the buffer is their concatenation `R`; on a live client connection the
client has received `R`; and after `LoggerRR` has run a handler writing these chunks, the
buffer and the response body of the printed block are `R`. -/
theorem logger_response_tee {W σ : Type} [http.ResponseWriter W] (w : W)
    (chunks : List Bytes) (sent : Bytes) (header : Header) (err : Option Error)
    (c : Context W σ) :
    (∀ (bw : bodyLogWriter W) (b : Bytes),
      (bw.Write b).1 = (http.ResponseWriter.Write bw.ResponseWriter b).1 ∧
      (bw.Write b).2.ResponseWriter = (http.ResponseWriter.Write bw.ResponseWriter b).2 ∧
      (bw.Write b).2.buf = bw.buf ++ b) ∧
    (writeChunks (⟨w, []⟩ : bodyLogWriter W) chunks).1 = (writeChunks w chunks).1 ∧
    (writeChunks (⟨w, []⟩ : bodyLogWriter W) chunks).2.ResponseWriter
      = (writeChunks w chunks).2 ∧
    (writeChunks (⟨w, []⟩ : bodyLogWriter W) chunks).2.buf = chunks.flatten ∧
    (writeChunks (⟨⟨sent, header, true⟩, []⟩ : bodyLogWriter ClientConn)
      chunks).2.ResponseWriter.sent = sent ++ chunks.flatten ∧
    (LoggerRR (writingHandler chunks err) c).2.response.Writer.buf = chunks.flatten ∧
    (LoggerRR (writingHandler chunks err) c).2.response.Writer.ResponseWriter
      = (writeChunks c.response.Writer chunks).2 ∧
    (∃ block : LogBlock,
      (LoggerRR (writingHandler chunks err) c).2.stdout = c.stdout ++ [block] ∧
      block.responseBody = chunks.flatten) := by
  have h := writeChunks_bodyLogWriter chunks w []
  have hc := writeChunks_bodyLogWriter chunks c.response.Writer []
  have hconn := writeChunks_bodyLogWriter chunks (⟨sent, header, true⟩ : ClientConn) []
  simp only [List.nil_append] at h hc hconn
  refine ⟨fun bw b => ⟨rfl, rfl, rfl⟩, h.1, h.2.1, h.2.2, ?_, hc.2.2, hc.2.1,
    ⟨_, rfl, hc.2.2⟩⟩
  rw [hconn.2.1, writeChunks_ClientConn]

/-- C9. Error transparency: for every wrapped handler `next` and every context,
`LoggerRR next` returns exactly the value that `next` returns on the context the logger
prepared, and leaves the context as that one call of `next` left it, except for one
diagnostic block appended to standard output after what `next` printed, rendered from the
state after `next` (status, captured response body); a handler that counts its invocations
has been invoked exactly once, and its error or nil comes back unchanged. -/
theorem logger_error_transparency {W σ : Type} [http.ResponseWriter W]
    (next : HandlerFunc (bodyLogWriter W) σ) (c : Context W σ) (err : Option Error)
    (counted : Context W Nat) :
    (LoggerRR next c).1 = (next (LoggerRR.wrap c).2).1 ∧
    (∃ block : LogBlock,
      (LoggerRR next c).2 =
        { (next (LoggerRR.wrap c).2).2 with
          stdout := (next (LoggerRR.wrap c).2).2.stdout ++ [block] } ∧
      block.status = (next (LoggerRR.wrap c).2).2.response.Status ∧
      block.responseBody = (next (LoggerRR.wrap c).2).2.response.Writer.buf) ∧
    (LoggerRR.wrap c).2.app = c.app ∧
    (LoggerRR.wrap c).2.stdout = c.stdout ∧
    (LoggerRR (countingHandler err) counted).1 = err ∧
    (LoggerRR (countingHandler err) counted).2.app = counted.app + 1 := by
  exact ⟨rfl, ⟨_, rfl, rfl, rfl⟩, rfl, rfl, rfl, rfl⟩

/-- The `POST` handler keeps the ids of the collection distinct. -/
theorem postBooks_UniqueIDs (drv : Driver) (bind : Option RequestData) {coll : Collection}
    (h : UniqueIDs coll) : UniqueIDs (postBooks drv bind coll).coll := by
  cases bind with
  | none => exact h
  | some fields =>
    simp only [postBooks]
    split
    · exact h
    · split
      · exact h
      · split
        · exact h
        · split
          · exact h
          · rename_i hcount _
            have hzero : CountDocuments coll (commaOk fields "id").1 = 0 := by omega
            rw [CountDocuments_eq_zero] at hzero
            unfold UniqueIDs InsertOne at *
            simp only [List.map_append, List.map_cons, List.map_nil]
            rw [List.nodup_append]
            refine ⟨h, List.nodup_singleton _, ?_⟩
            intro a ha hb
            simp only [List.mem_singleton] at hb
            obtain ⟨b, hbmem, hbid⟩ := List.mem_map.mp ha
            apply hzero b hbmem
            rw [hbid, hb]
            simp

/-- The `PUT` handler keeps the ids of the collection in place. -/
theorem putBooks_IDs (drv : Driver) (id : String) (bind : Option RequestData)
    (coll : Collection) :
    ((putBooks drv id bind coll).coll.map fun b => b.ID) = (coll.map fun b => b.ID) := by
  cases bind with
  | none => rfl
  | some fields =>
    simp only [putBooks]
    split
    · rfl
    · cases hf : FindOne coll id with
      | none => rfl
      | some found =>
        simp only
        split
        · rfl
        · cases hr : ReplaceOne coll id (updateFields found fields) with
          | none => rfl
          | some coll' =>
            simp only
            exact ReplaceOne_IDs (by rw [updateFields_ID]; exact FindOne_ID hf) hr

/-- The `DELETE` handler leaves a sublist of the collection. -/
theorem deleteBooks_sublist (drv : Driver) (id : String) (coll : Collection) :
    List.Sublist (deleteBooks drv id coll).coll coll := by
  unfold deleteBooks
  split
  · exact List.Sublist.refl _
  · simp only
    split
    · exact DeleteOne_sublist coll id
    · exact DeleteOne_sublist coll id

theorem Call.run_UniqueIDs (call : Call) {coll : Collection} (h : UniqueIDs coll) :
    UniqueIDs (call.run coll).coll := by
  cases call with
  | create drv bind => exact postBooks_UniqueIDs drv bind h
  | update drv id bind =>
    unfold UniqueIDs Call.run at *
    rw [putBooks_IDs]
    exact h
  | delete drv id =>
    unfold UniqueIDs Call.run at *
    exact List.Nodup.sublist ((deleteBooks_sublist drv id coll).map _) h

/-- C10. Uniqueness invariant: from a collection in which no two records share an `ID`,
every sequence of create, update and delete requests handled one after the other, whether
the store calls succeed or fail, leaves a collection in which no two records share an
`ID`. -/
theorem unique_ids_invariant (calls : List Call) (coll : Collection) (h : UniqueIDs coll) :
    UniqueIDs (runCalls calls coll) := by
  induction calls generalizing coll with
  | nil => exact h
  | cons call rest ih => exact ih _ (Call.run_UniqueIDs call h)

/-- Witness for C10: a create, a refused duplicate create, an update and a delete on a
collection with two books. -/
theorem unique_ids_invariant_witness :
    UniqueIDs [⟨1, "b1", "T", "A", "", "", ""⟩, ⟨2, "b2", "U", "B", "", "", ""⟩] ∧
    UniqueIDs (runCalls
      [.create (Driver.healthy 3) (some [("id", "b3"), ("title", "V"), ("author", "C")]),
       .create (Driver.healthy 4) (some [("id", "b1"), ("title", "W"), ("author", "D")]),
       .update (Driver.healthy 5) "b2" (some [("title", "X"), ("id", "b1")]),
       .delete (Driver.healthy 6) "b1"]
      [⟨1, "b1", "T", "A", "", "", ""⟩, ⟨2, "b2", "U", "B", "", "", ""⟩]) :=
  ⟨by decide, unique_ids_invariant _ _ (by decide)⟩

/-! ## Title and author stay non-empty -/

theorem sparseValue_ne_empty (m : RequestData) (k : String) {old : String}
    (h : old ≠ "") : sparseValue m k old ≠ "" := by
  unfold sparseValue
  cases m.lookup k with
  | none => exact h
  | some v =>
    by_cases hv : v = ""
    · simp [hv, h]
    · simp [hv]

/-- A document of the collection after `ReplaceOne` is an old document or the replacement,
up to its `_id`. -/
theorem ReplaceOne_mem {coll coll' : Collection} {id : String} {repl : BookStore}
    (h : ReplaceOne coll id repl = some coll') :
    ∀ b ∈ coll', b ∈ coll ∨ ∃ oid, b = { repl with MongoID := oid } := by
  induction coll generalizing coll' with
  | nil =>
    simp [ReplaceOne] at h
    subst h
    simp
  | cons d rest ih =>
    unfold ReplaceOne at h
    by_cases hd : d.ID = id
    · rw [if_pos hd] at h
      split at h
      · cases h
        intro b hb
        rcases List.mem_cons.mp hb with hb | hb
        · exact Or.inr ⟨d.MongoID, hb⟩
        · exact Or.inl (List.mem_cons_of_mem _ hb)
      · split at h
        · cases h
          intro b hb
          rcases List.mem_cons.mp hb with hb | hb
          · exact Or.inr ⟨repl.MongoID, hb⟩
          · exact Or.inl (List.mem_cons_of_mem _ hb)
        · cases h
    · rw [if_neg hd] at h
      cases hr : ReplaceOne rest id repl with
      | none => rw [hr] at h; cases h
      | some c =>
        rw [hr] at h
        cases h
        intro b hb
        rcases List.mem_cons.mp hb with hb | hb
        · exact Or.inl (hb ▸ List.mem_cons_self _ _)
        · rcases ih hr b hb with hmem | hrepl
          · exact Or.inl (List.mem_cons_of_mem _ hmem)
          · exact Or.inr hrepl

theorem postBooks_TitledAndAuthored (drv : Driver) (bind : Option RequestData)
    {coll : Collection} (h : TitledAndAuthored coll) :
    TitledAndAuthored (postBooks drv bind coll).coll := by
  cases bind with
  | none => exact h
  | some fields =>
    simp only [postBooks]
    split
    · exact h
    · split
      · exact h
      · split
        · exact h
        · split
          · exact h
          · rename_i hcheck _ _ _
            simp only [Bool.or_eq_true, Bool.not_eq_true', beq_iff_eq, not_or] at hcheck
            intro b hb
            unfold InsertOne at hb
            simp only [if_true, List.mem_append, List.mem_singleton] at hb
            rcases hb with hb | hb
            · exact h b hb
            · subst hb
              exact ⟨hcheck.1.1.2, hcheck.2⟩

theorem putBooks_TitledAndAuthored (drv : Driver) (id : String) (bind : Option RequestData)
    {coll : Collection} (h : TitledAndAuthored coll) :
    TitledAndAuthored (putBooks drv id bind coll).coll := by
  cases bind with
  | none => exact h
  | some fields =>
    simp only [putBooks]
    split
    · exact h
    · cases hf : FindOne coll id with
      | none => exact h
      | some found =>
        simp only
        split
        · exact h
        · cases hr : ReplaceOne coll id (updateFields found fields) with
          | none => exact h
          | some coll' =>
            simp only
            intro b hb
            rcases ReplaceOne_mem hr b hb with hmem | ⟨oid, hrepl⟩
            · exact h b hmem
            · have hfound := h found (FindOne_mem hf)
              subst hrepl
              simp only
              rw [updateFields_BookName, updateFields_BookAuthor]
              exact ⟨sparseValue_ne_empty _ _ hfound.1, sparseValue_ne_empty _ _ hfound.2⟩

theorem Call.run_TitledAndAuthored (call : Call) {coll : Collection}
    (h : TitledAndAuthored coll) : TitledAndAuthored (call.run coll).coll := by
  cases call with
  | create drv bind => exact postBooks_TitledAndAuthored drv bind h
  | update drv id bind => exact putBooks_TitledAndAuthored drv id bind h
  | delete drv id =>
    intro b hb
    exact h b ((deleteBooks_sublist drv id coll).subset hb)

/-- C11. Non-empty title and author: from a collection in which every record has a
non-empty title and a non-empty author, every sequence of create, update and delete
requests handled one after the other, whether the store calls succeed or fail, leaves a
collection in which every record has a non-empty title and a non-empty author. -/
theorem title_author_invariant (calls : List Call) (coll : Collection)
    (h : TitledAndAuthored coll) : TitledAndAuthored (runCalls calls coll) := by
  induction calls generalizing coll with
  | nil => exact h
  | cons call rest ih => exact ih _ (Call.run_TitledAndAuthored call h)

/-- Witness for C11: a create, an update that blanks the title and the author in its
request, a create without a title and a delete, on a collection with two books. -/
theorem title_author_invariant_witness :
    TitledAndAuthored [⟨1, "b1", "T", "A", "", "", ""⟩, ⟨2, "b2", "U", "B", "", "", ""⟩] ∧
    TitledAndAuthored (runCalls
      [.create (Driver.healthy 3) (some [("id", "b3"), ("title", "V"), ("author", "C")]),
       .update (Driver.healthy 4) "b2" (some [("title", ""), ("author", "")]),
       .create (Driver.healthy 5) (some [("id", "b4"), ("title", ""), ("author", "D")]),
       .delete (Driver.healthy 6) "b1"]
      [⟨1, "b1", "T", "A", "", "", ""⟩, ⟨2, "b2", "U", "B", "", "", ""⟩]) :=
  ⟨by decide, title_author_invariant _ _ (by decide)⟩

/-! ## Reading all books -/

theorem getAllBooksForAPI_loop (results : List BookStore) (ret : Option (List JsonObject)) :
    results.foldl (fun ret res => some (ret.getD [] ++ [bookJson res])) ret =
      match results with
      | [] => ret
      | _ :: _ => some (ret.getD [] ++ results.map bookJson) := by
  induction results generalizing ret with
  | nil => rfl
  | cons d rest ih =>
    rw [List.foldl_cons, ih]
    cases rest with
    | nil => simp
    | cons e rest' => simp

/-- The reply of `GET /api/books` when the cursor can be read: the nil slice for the empty
collection, otherwise one object per document, in the order of the collection. -/
theorem getBooks_eq {drv : Driver} (hcursor : drv.cursorFails = false) (coll : Collection) :
    getBooks drv coll =
      some ⟨200, .array (match coll with
        | [] => none
        | _ :: _ => some (coll.map bookJson))⟩ := by
  unfold getBooks getAllBooksForAPI
  rw [hcursor]
  simp only [Bool.false_eq_true, if_false]
  rw [getAllBooksForAPI_loop]
  cases coll <;> simp

/-- C12. Reading all books, evaluated on the code: with the cursor readable, for every
non-empty collection `GET /api/books` answers 200 with the array holding exactly one object
per record, in store order, each with the members `id`, `title`, `author`, `pages`,
`edition`, `year` bound to the record's values; for the empty collection the handler
encodes the nil slice, which is JSON `null`, not the empty array the claim requires; and
the empty collection is reached by deleting the three seed records. -/
theorem get_books_reply (oid : Nat) (d : BookStore) (rest : Collection) :
    getBooks (Driver.healthy oid) (d :: rest) =
      some ⟨200, .array (some ((d :: rest).map fun b =>
        [("id", b.ID), ("title", b.BookName), ("author", b.BookAuthor),
         ("pages", b.BookPages), ("edition", b.BookEdition), ("year", b.BookYear)]))⟩ ∧
    getBooks (Driver.healthy oid) [] = some ⟨200, .array none⟩ ∧
    getBooks (Driver.healthy oid) [] ≠ some ⟨200, .array (some [])⟩ ∧
    (∃ seeded : Collection,
      prepareData (fun i => Driver.healthy (100 + i)) [] = some seeded ∧
      runCalls [.delete (Driver.healthy 0) "example1", .delete (Driver.healthy 0) "example2",
        .delete (Driver.healthy 0) "example3"] seeded = []) := by
  refine ⟨?_, ?_, ?_, ⟨_, rfl, by decide⟩⟩
  · rw [getBooks_eq rfl]
    rfl
  · rw [getBooks_eq rfl]
  · rw [getBooks_eq rfl]
    simp

/-! ## Create, read, update, read, delete -/

theorem ReplaceOne_append_of_none {c₁ : Collection} {id : String}
    (h : ∀ b ∈ c₁, b.ID ≠ id) (c₂ : Collection) (repl : BookStore) :
    ReplaceOne (c₁ ++ c₂) id repl = (ReplaceOne c₂ id repl).map (fun c => c₁ ++ c) := by
  induction c₁ with
  | nil => simp
  | cons d rest ih =>
    have hd : ¬ d.ID = id := h d (List.mem_cons_self _ _)
    have hr := ih (fun b hb => h b (List.mem_cons_of_mem _ hb))
    have hstep : ReplaceOne (d :: (rest ++ c₂)) id repl =
        (ReplaceOne (rest ++ c₂) id repl).map (fun rest' => d :: rest') := by
      simp [ReplaceOne, hd]
    rw [List.cons_append, hstep, hr]
    cases ReplaceOne c₂ id repl <;> rfl

theorem DeleteOne_append_of_none {c₁ : Collection} {id : String}
    (h : ∀ b ∈ c₁, b.ID ≠ id) (c₂ : Collection) :
    DeleteOne (c₁ ++ c₂) id = (c₁ ++ (DeleteOne c₂ id).1, (DeleteOne c₂ id).2) := by
  induction c₁ with
  | nil => simp
  | cons d rest ih =>
    have hd : ¬ d.ID = id := h d (List.mem_cons_self _ _)
    have hr := ih (fun b hb => h b (List.mem_cons_of_mem _ hb))
    have hstep : DeleteOne (d :: (rest ++ c₂)) id =
        (d :: (DeleteOne (rest ++ c₂) id).1, (DeleteOne (rest ++ c₂) id).2) := by
      simp [DeleteOne, hd]
    rw [List.cons_append, hstep, hr]
    rfl

theorem bookJson_lookup_id (b : BookStore) : (bookJson b).lookup "id" = some b.ID := by
  simp [bookJson, List.lookup]

/-- When exactly one document carries `id`, the replacement is the only document under
`id` after `ReplaceOne`. -/
theorem ReplaceOne_unique {coll coll' : Collection} {id : String} {r repl : BookStore}
    (hfound : FindOne coll id = some r) (hone : CountDocuments coll id = 1)
    (hoid : repl.MongoID = r.MongoID) (h : ReplaceOne coll id repl = some coll') :
    ∀ b ∈ coll', b.ID = id → b = repl := by
  induction coll generalizing coll' with
  | nil => simp [FindOne] at hfound
  | cons d rest ih =>
    unfold FindOne at hfound
    unfold CountDocuments at hone
    unfold ReplaceOne at h
    by_cases hd : d.ID = id
    · rw [if_pos hd] at hfound hone h
      have hdr : d = r := Option.some.inj hfound
      rw [← hdr] at hoid
      have hrest : ∀ b ∈ rest, b.ID ≠ id := CountDocuments_eq_zero.mp (by omega)
      have hrepl : ({ repl with MongoID := d.MongoID } : BookStore) = repl := by
        rw [← hoid]
      have hc : coll' = repl :: rest := by
        by_cases h0 : repl.MongoID = 0
        · rw [if_pos h0, hrepl] at h
          exact (Option.some.inj h).symm
        · rw [if_neg h0, if_pos hoid] at h
          exact (Option.some.inj h).symm
      subst hc
      intro b hb hbid
      rcases List.mem_cons.mp hb with hb | hb
      · exact hb
      · exact absurd hbid (hrest b hb)
    · rw [if_neg hd] at hfound hone h
      cases hr : ReplaceOne rest id repl with
      | none => rw [hr] at h; cases h
      | some c =>
        rw [hr] at h
        have hc : coll' = d :: c := (Option.some.inj h).symm
        subst hc
        intro b hb hbid
        rcases List.mem_cons.mp hb with hb | hb
        · exact absurd (hb ▸ hbid) hd
        · exact ih hfound (by omega) hr b hb hbid

/-- The `POST` handler answers 201 only with the object of the record it appended. -/
theorem postBooks_created_json {drv : Driver} {fields : RequestData} {coll : Collection}
    (h : (postBooks drv (some fields) coll).reply.status = 201) :
    ∃ b : BookStore, (postBooks drv (some fields) coll).coll = coll ++ [b] ∧
      (postBooks drv (some fields) coll).reply = ⟨201, .object (bookJson b)⟩ := by
  simp only [postBooks] at h ⊢
  split at h
  · simp [errorReply] at h
  · split at h
    · simp [errorReply] at h
    · split at h
      · simp [errorReply] at h
      · split at h
        · simp [errorReply] at h
        · rename_i h1 h2 h3 h4
          rw [if_neg h1, if_neg h2, if_neg h3, if_neg h4]
          exact ⟨_, rfl, rfl⟩

/-- The `PUT` handler answers 200 only after replacing the record found by its update. -/
theorem putBooks_ok {drv : Driver} {id : String} {fields : RequestData} {coll : Collection}
    (h : (putBooks drv id (some fields) coll).reply.status = 200) :
    ∃ (found : BookStore) (coll' : Collection), FindOne coll id = some found ∧
      ReplaceOne coll id (updateFields found fields) = some coll' ∧
      putBooks drv id (some fields) coll =
        ⟨⟨200, .empty⟩, coll', [.findOne id, .replaceOne id (updateFields found fields)]⟩ := by
  simp only [putBooks] at h ⊢
  split at h
  · simp [errorReply] at h
  · rename_i hfind
    rw [if_neg hfind]
    cases hf : FindOne coll id with
    | none => rw [hf] at h; simp [errorReply] at h
    | some found =>
      rw [hf] at h
      simp only at h ⊢
      split at h
      · simp [errorReply] at h
      · rename_i hrepl
        rw [if_neg hrepl]
        cases hr : ReplaceOne coll id (updateFields found fields) with
        | none => rw [hr] at h; simp [errorReply] at h
        | some coll' => exact ⟨found, coll', rfl, hr, by simp only [hr]⟩

theorem getBooks_mem (drv : Driver) (hcursor : drv.cursorFails = false) {coll : Collection}
    {b : BookStore} (hb : b ∈ coll) :
    ∃ objs, getBooks drv coll = some ⟨200, .array (some objs)⟩ ∧
      objs = coll.map bookJson ∧ bookJson b ∈ objs := by
  rw [getBooks_eq hcursor]
  cases coll with
  | nil => cases hb
  | cons d rest => exact ⟨_, rfl, rfl, List.mem_map_of_mem _ hb⟩

/-- C13. End to end, on every collection without a record `b1` (store calls succeeding):
`POST` of `b1`, `T`, `A` answers 201 with the object whose optional members are empty and
appends the record; the following `GET` contains that object; `PUT` on `b1` with pages `42`
answers 200 and the following `GET` shows, as its only `b1` object, the one with pages `42`
and the other members unchanged; `DELETE` answers 200 and restores the collection; the
second `DELETE` answers 404. In general the object returned by a successful create is in
the next `GET`, and the record persisted by a successful update is the one found under its
id and shown by the next `GET` (the only one under that id when the id was unique). -/
theorem end_to_end_scenario (coll : Collection) (o₁ o₂ o₃ o₄ o₅ o₆ : Nat)
    (hfresh : ∀ b ∈ coll, b.ID ≠ "b1") :
    (postBooks (Driver.healthy o₁) (some [("id", "b1"), ("title", "T"), ("author", "A")])
      coll).reply = ⟨201, .object [("id", "b1"), ("title", "T"), ("author", "A"),
        ("pages", ""), ("edition", ""), ("year", "")]⟩ ∧
    (postBooks (Driver.healthy o₁) (some [("id", "b1"), ("title", "T"), ("author", "A")])
      coll).coll = coll ++ [⟨o₁, "b1", "T", "A", "", "", ""⟩] ∧
    (∃ objs, getBooks (Driver.healthy o₂) (coll ++ [⟨o₁, "b1", "T", "A", "", "", ""⟩])
        = some ⟨200, .array (some objs)⟩ ∧
      [("id", "b1"), ("title", "T"), ("author", "A"), ("pages", ""), ("edition", ""),
        ("year", "")] ∈ objs) ∧
    (putBooks (Driver.healthy o₃) "b1" (some [("pages", "42")])
      (coll ++ [⟨o₁, "b1", "T", "A", "", "", ""⟩])).reply = ⟨200, .empty⟩ ∧
    (putBooks (Driver.healthy o₃) "b1" (some [("pages", "42")])
      (coll ++ [⟨o₁, "b1", "T", "A", "", "", ""⟩])).coll
      = coll ++ [⟨o₁, "b1", "T", "A", "", "42", ""⟩] ∧
    (∃ objs, getBooks (Driver.healthy o₄) (coll ++ [⟨o₁, "b1", "T", "A", "", "42", ""⟩])
        = some ⟨200, .array (some objs)⟩ ∧
      [("id", "b1"), ("title", "T"), ("author", "A"), ("pages", "42"), ("edition", ""),
        ("year", "")] ∈ objs ∧
      ∀ o ∈ objs, o.lookup "id" = some "b1" →
        o = [("id", "b1"), ("title", "T"), ("author", "A"), ("pages", "42"),
          ("edition", ""), ("year", "")]) ∧
    (deleteBooks (Driver.healthy o₅) "b1"
      (coll ++ [⟨o₁, "b1", "T", "A", "", "42", ""⟩])).reply = ⟨200, .empty⟩ ∧
    (deleteBooks (Driver.healthy o₅) "b1"
      (coll ++ [⟨o₁, "b1", "T", "A", "", "42", ""⟩])).coll = coll ∧
    (deleteBooks (Driver.healthy o₆) "b1" coll).reply.status = 404 ∧
    (∀ (drv drv' : Driver) (fields : RequestData) (c : Collection) (obj : JsonObject),
      (postBooks drv (some fields) c).reply = ⟨201, .object obj⟩ →
      drv'.cursorFails = false →
      ∃ objs, getBooks drv' (postBooks drv (some fields) c).coll
          = some ⟨200, .array (some objs)⟩ ∧ obj ∈ objs) ∧
    (∀ (drv drv' : Driver) (id : String) (fields : RequestData) (c : Collection),
      (putBooks drv id (some fields) c).reply.status = 200 →
      drv'.cursorFails = false →
      ∃ (p : BookStore) (objs : List JsonObject),
        (putBooks drv id (some fields) c).calls = [.findOne id, .replaceOne id p] ∧
        FindOne (putBooks drv id (some fields) c).coll id = some p ∧
        getBooks drv' (putBooks drv id (some fields) c).coll
          = some ⟨200, .array (some objs)⟩ ∧
        bookJson p ∈ objs ∧
        (CountDocuments c id = 1 →
          ∀ o ∈ objs, o.lookup "id" = some id → o = bookJson p)) := by
  have hzero : CountDocuments coll "b1" = 0 := CountDocuments_eq_zero.mpr hfresh
  have hnone : FindOne coll "b1" = none := FindOne_eq_none.mpr hfresh
  have hpost : postBooks (Driver.healthy o₁)
      (some [("id", "b1"), ("title", "T"), ("author", "A")]) coll =
      ⟨⟨201, .object [("id", "b1"), ("title", "T"), ("author", "A"), ("pages", ""),
        ("edition", ""), ("year", "")]⟩, coll ++ [⟨o₁, "b1", "T", "A", "", "", ""⟩],
        [.countDocuments "b1", .insertOne ⟨0, "b1", "T", "A", "", "", ""⟩]⟩ := by
    simp [postBooks, commaOk, index, List.lookup, Driver.healthy, hzero, InsertOne, bookJson]
  have hput : putBooks (Driver.healthy o₃) "b1" (some [("pages", "42")])
      (coll ++ [⟨o₁, "b1", "T", "A", "", "", ""⟩]) =
      ⟨⟨200, .empty⟩, coll ++ [⟨o₁, "b1", "T", "A", "", "42", ""⟩],
        [.findOne "b1", .replaceOne "b1" ⟨o₁, "b1", "T", "A", "", "42", ""⟩]⟩ := by
    have hf : FindOne (coll ++ [⟨o₁, "b1", "T", "A", "", "", ""⟩]) "b1"
        = some ⟨o₁, "b1", "T", "A", "", "", ""⟩ := by
      rw [FindOne_append_of_none hnone]
      simp [FindOne]
    have hu : updateFields ⟨o₁, "b1", "T", "A", "", "", ""⟩ [("pages", "42")]
        = ⟨o₁, "b1", "T", "A", "", "42", ""⟩ := by
      simp [updateFields, commaOk, List.lookup]
    have hr : ReplaceOne (coll ++ [⟨o₁, "b1", "T", "A", "", "", ""⟩]) "b1"
        ⟨o₁, "b1", "T", "A", "", "42", ""⟩
        = some (coll ++ [⟨o₁, "b1", "T", "A", "", "42", ""⟩]) := by
      rw [ReplaceOne_append_of_none hfresh]
      by_cases h0 : o₁ = 0
      · simp [ReplaceOne, h0]
      · simp [ReplaceOne, h0]
    simp [putBooks, Driver.healthy, hf, hu, hr]
  have hdel : DeleteOne (coll ++ [⟨o₁, "b1", "T", "A", "", "42", ""⟩]) "b1" = (coll, 1) := by
    rw [DeleteOne_append_of_none hfresh]
    simp [DeleteOne]
  refine ⟨by rw [hpost], by rw [hpost], ?_, by rw [hput], by rw [hput], ?_, ?_, ?_, ?_, ?_, ?_⟩
  · obtain ⟨objs, h1, -, h3⟩ := getBooks_mem (Driver.healthy o₂) rfl
      (show (⟨o₁, "b1", "T", "A", "", "", ""⟩ : BookStore) ∈
        coll ++ [⟨o₁, "b1", "T", "A", "", "", ""⟩] by simp)
    exact ⟨objs, h1, h3⟩
  · obtain ⟨objs, h1, h2, h3⟩ := getBooks_mem (Driver.healthy o₄) rfl
      (show (⟨o₁, "b1", "T", "A", "", "42", ""⟩ : BookStore) ∈
        coll ++ [⟨o₁, "b1", "T", "A", "", "42", ""⟩] by simp)
    refine ⟨objs, h1, h3, ?_⟩
    intro o ho hid
    rw [h2] at ho
    obtain ⟨b, hb, rfl⟩ := List.mem_map.mp ho
    rw [bookJson_lookup_id] at hid
    rcases List.mem_append.mp hb with hb | hb
    · exact absurd (Option.some.inj hid) (hfresh b hb)
    · rw [List.mem_singleton.mp hb]
      rfl
  · simp [deleteBooks, Driver.healthy, hdel]
  · simp [deleteBooks, Driver.healthy, hdel]
  · simp [deleteBooks, Driver.healthy, DeleteOne_none coll "b1" hfresh, errorReply]
  · intro drv drv' fields c obj hreply hcursor
    have hstatus : (postBooks drv (some fields) c).reply.status = 201 := by rw [hreply]
    obtain ⟨b, hcoll, hjson⟩ := postBooks_created_json hstatus
    rw [hreply] at hjson
    have hobj : obj = bookJson b := by
      simpa using hjson
    obtain ⟨objs, h1, -, h3⟩ := getBooks_mem drv' hcursor
      (show b ∈ (postBooks drv (some fields) c).coll by rw [hcoll]; simp)
    exact ⟨objs, h1, hobj ▸ h3⟩
  · intro drv drv' id fields c hstatus hcursor
    obtain ⟨found, coll', hfound, hrepl, hout⟩ := putBooks_ok hstatus
    have hpid : (updateFields found fields).ID = id := by
      rw [updateFields_ID]; exact FindOne_ID hfound
    obtain ⟨c₂, hc₂, hf₂, -, -⟩ :=
      ReplaceOne_found hfound (updateFields_MongoID found fields) hpid
    have hcc : c₂ = coll' := Option.some.inj (hc₂.symm.trans hrepl)
    subst hcc
    rw [hout]
    simp only
    obtain ⟨objs, h1, h2, h3⟩ := getBooks_mem drv' hcursor (FindOne_mem hf₂)
    refine ⟨updateFields found fields, objs, rfl, hf₂, h1, h3, ?_⟩
    intro hone o ho hid
    rw [h2] at ho
    obtain ⟨b, hb, rfl⟩ := List.mem_map.mp ho
    rw [bookJson_lookup_id] at hid
    rw [ReplaceOne_unique hfound hone (updateFields_MongoID found fields) hrepl b hb
      (Option.some.inj hid)]

/-- Witness for C13: the scenario on a collection that holds one other book. -/
theorem end_to_end_scenario_witness :
    (∀ b ∈ ([⟨7, "b0", "X", "Y", "", "", ""⟩] : Collection), b.ID ≠ "b1") ∧
    (postBooks (Driver.healthy 1) (some [("id", "b1"), ("title", "T"), ("author", "A")])
      [⟨7, "b0", "X", "Y", "", "", ""⟩]).coll
      = [⟨7, "b0", "X", "Y", "", "", ""⟩, ⟨1, "b1", "T", "A", "", "", ""⟩] ∧
    (putBooks (Driver.healthy 3) "b1" (some [("pages", "42")])
      [⟨7, "b0", "X", "Y", "", "", ""⟩, ⟨1, "b1", "T", "A", "", "", ""⟩]).coll
      = [⟨7, "b0", "X", "Y", "", "", ""⟩, ⟨1, "b1", "T", "A", "", "42", ""⟩] ∧
    (deleteBooks (Driver.healthy 5) "b1"
      [⟨7, "b0", "X", "Y", "", "", ""⟩, ⟨1, "b1", "T", "A", "", "42", ""⟩]).coll
      = [⟨7, "b0", "X", "Y", "", "", ""⟩] ∧
    (deleteBooks (Driver.healthy 6) "b1" [⟨7, "b0", "X", "Y", "", "", ""⟩]).reply.status
      = 404 := by
  have hfresh : ∀ b ∈ ([⟨7, "b0", "X", "Y", "", "", ""⟩] : Collection), b.ID ≠ "b1" := by
    decide
  have h := end_to_end_scenario [⟨7, "b0", "X", "Y", "", "", ""⟩] 1 2 3 4 5 6 hfresh
  exact ⟨hfresh, h.2.1, h.2.2.2.2.1, h.2.2.2.2.2.2.2.1, h.2.2.2.2.2.2.2.2.1⟩

/-! ## Start-up seeding -/

theorem mem_Find {coll : Collection} {filter d : BookStore} :
    d ∈ Find coll filter ↔ d ∈ coll ∧ { d with MongoID := filter.MongoID } = filter := by
  unfold Find
  rw [List.mem_filter]
  cases d
  cases filter
  simp

theorem Find_length_le (coll : Collection) (filter : BookStore) :
    (Find coll filter).length ≤ CountDocuments coll filter.ID := by
  induction coll with
  | nil => simp [Find, CountDocuments]
  | cons d rest ih =>
    unfold Find at ih ⊢
    unfold CountDocuments
    rw [List.filter_cons]
    by_cases hd : d.ID = filter.ID
    · rw [if_pos hd]
      split
      · simp only [List.length_cons]
        omega
      · omega
    · have hfalse : ¬ (decide (d.ID = filter.ID ∧ d.BookName = filter.BookName ∧
          d.BookAuthor = filter.BookAuthor ∧ d.BookEdition = filter.BookEdition ∧
          d.BookPages = filter.BookPages ∧ d.BookYear = filter.BookYear) = true) := by
        simp [hd]
      rw [if_neg hfalse, if_neg hd]
      omega

/-- One iteration of the seeding loop on a collection with distinct ids in which every
record under the seed's id still equals the seed record (up to `_id`): with the store calls
succeeding the process goes on, the ids stay distinct, and the collection is unchanged or
has the seed record appended. -/
theorem seedBook_UniqueIDs {drv : Driver} {book : BookStore} {coll : Collection}
    (hcursor : drv.cursorFails = false) (hinsert : drv.insertFails = false)
    (h : UniqueIDs coll)
    (hsame : ∀ d ∈ coll, d.ID = book.ID → { d with MongoID := book.MongoID } = book) :
    ∃ coll', seedBook drv book coll = some coll' ∧ UniqueIDs coll' ∧
      (coll' = coll ∨ ∃ b, coll' = coll ++ [b] ∧ b.ID = book.ID) := by
  have hle : (Find coll book).length ≤ 1 :=
    Nat.le_trans (Find_length_le coll book) (UniqueIDs_count_le h book.ID)
  unfold seedBook
  rw [hcursor, hinsert]
  simp only [Bool.false_eq_true, if_false]
  rw [if_neg (by omega)]
  by_cases h0 : (Find coll book).length = 0
  · rw [if_pos h0]
    have hnil : Find coll book = [] := List.length_eq_zero.mp h0
    have hfresh : ∀ d ∈ coll, d.ID ≠ book.ID := by
      intro d hd hid
      have hmem : d ∈ Find coll book := mem_Find.mpr ⟨hd, hsame d hd hid⟩
      rw [hnil] at hmem
      cases hmem
    have hbid : (if book.MongoID = 0 then { book with MongoID := drv.newObjectID }
        else book).ID = book.ID := by
      split <;> rfl
    refine ⟨_, rfl, ?_, Or.inr ⟨_, rfl, hbid⟩⟩
    unfold UniqueIDs InsertOne at *
    simp only [List.map_append, List.map_cons, List.map_nil]
    rw [List.nodup_append]
    refine ⟨h, List.nodup_singleton _, ?_⟩
    intro a ha hb
    simp only [List.mem_singleton] at hb
    obtain ⟨d, hdmem, hdid⟩ := List.mem_map.mp ha
    apply hfresh d hdmem
    rw [hdid, hb, hbid]
  · rw [if_neg h0]
    exact ⟨coll, rfl, h, Or.inl rfl⟩

theorem seedAll_UniqueIDs (drv : Nat → Driver)
    (hcursor : ∀ i, (drv i).cursorFails = false) (hinsert : ∀ i, (drv i).insertFails = false)
    (books : List BookStore) (hbooks : (books.map fun b => b.ID).Nodup) :
    ∀ (i : Nat) (coll : Collection), UniqueIDs coll →
      (∀ book ∈ books, ∀ d ∈ coll, d.ID = book.ID →
        { d with MongoID := book.MongoID } = book) →
      ∃ coll', seedAll drv i books coll = some coll' ∧ UniqueIDs coll' := by
  induction books with
  | nil =>
    intro i coll h _
    exact ⟨coll, rfl, h⟩
  | cons book rest ih =>
    intro i coll h hsame
    simp only [List.map_cons, List.nodup_cons] at hbooks
    obtain ⟨c₁, hc₁, hu₁, hshape⟩ := seedBook_UniqueIDs (hcursor i) (hinsert i) h
      (hsame book (List.mem_cons_self _ _))
    have hsame₁ : ∀ book' ∈ rest, ∀ d ∈ c₁, d.ID = book'.ID →
        { d with MongoID := book'.MongoID } = book' := by
      intro book' hb' d hd hid
      rcases hshape with hc | ⟨b, hc, hbid⟩
      · rw [hc] at hd
        exact hsame book' (List.mem_cons_of_mem _ hb') d hd hid
      · rw [hc] at hd
        rcases List.mem_append.mp hd with hd | hd
        · exact hsame book' (List.mem_cons_of_mem _ hb') d hd hid
        · rw [List.mem_singleton.mp hd, hbid] at hid
          exact absurd (List.mem_map.mpr ⟨book', hb', hid.symm⟩) hbooks.1
    obtain ⟨c₂, hc₂, hu₂⟩ := ih hbooks.2 (i + 1) c₁ hu₁ hsame₁
    refine ⟨c₂, ?_, hu₂⟩
    simp only [seedAll, hc₁]
    exact hc₂

/-- What the seeding does keep: on a collection with distinct ids in which every record
under a seed id still equals its seed record in all six fields, `prepareData` (store calls
succeeding) runs to the end and leaves the ids distinct. -/
theorem prepareData_UniqueIDs_of_unchanged (drv : Nat → Driver)
    (hcursor : ∀ i, (drv i).cursorFails = false) (hinsert : ∀ i, (drv i).insertFails = false)
    (coll : Collection) (h : UniqueIDs coll)
    (hsame : ∀ book ∈ startData, ∀ d ∈ coll, d.ID = book.ID →
      { d with MongoID := book.MongoID } = book) :
    ∃ coll', prepareData drv coll = some coll' ∧ UniqueIDs coll' :=
  seedAll_UniqueIDs drv hcursor hinsert startData (by decide) 0 coll h hsame


/-- C14, evaluated on the code: seeding the empty collection gives three records with
distinct ids; after a `PUT` that changes the page count of `example1` the ids are still
distinct; seeding again (the next start) finds no document equal to the seed record in all
six fields and inserts it, so two records carry `example1` and the ids are no longer
distinct. -/
theorem prepareData_after_update_duplicates :
    ∃ seeded restarted : Collection,
      prepareData (fun i => Driver.healthy (100 + i)) [] = some seeded ∧
      UniqueIDs seeded ∧
      (putBooks (Driver.healthy 0) "example1" (some [("pages", "300")]) seeded).reply
        = ⟨200, .empty⟩ ∧
      UniqueIDs (putBooks (Driver.healthy 0) "example1" (some [("pages", "300")])
        seeded).coll ∧
      prepareData (fun i => Driver.healthy (200 + i))
        (putBooks (Driver.healthy 0) "example1" (some [("pages", "300")]) seeded).coll
        = some restarted ∧
      CountDocuments restarted "example1" = 2 ∧
      ¬ UniqueIDs restarted := by
  refine ⟨_, _, rfl, ?_, ?_, ?_, rfl, ?_, ?_⟩ <;> decide

end BookApi
